import Mathlib

/-!
Shallow embedding of the Operation-Analytics pipelines (pandas ETL code)
and verification of the specification claims about them.

Dataframes are modelled as association lists of named columns; a cell is
either a numeric value (exact rationals stand in for floats), a string, or
null (pandas NaN / NaT / None).  Timestamps are modelled at day
granularity as integers (days since the epoch).
-/

namespace OpAnalytics

/-- A single dataframe cell: a number, a raw string, a date-like value
(timestamp at day granularity), or a missing value. -/
inductive Cell where
  | num (q : ℚ)
  | str (s : String)
  | date (d : ℤ)
  | null
  deriving DecidableEq, Repr, Inhabited

/-- A dataframe: ordered association list of (column name, column data). -/
structure DF where
  cols : List (String × List Cell)
  deriving DecidableEq, Repr, Inhabited

namespace DF

/-- First column with the given name (pandas df[name] lookup). -/
def getCol (df : DF) (name : String) : Option (List Cell) :=
  (df.cols.find? (fun p => p.1 == name)).map Prod.snd

/-- Column-membership test (pandas `name in df.columns`). -/
def hasCol (df : DF) (name : String) : Bool :=
  df.cols.any (fun p => p.1 == name)

/-- Assignment df[name] = data: replaces the data of every column with that
name, or appends a new column at the end when the name is absent. -/
def setCol (df : DF) (name : String) (data : List Cell) : DF :=
  if df.hasCol name then
    ⟨df.cols.map (fun p => if p.1 == name then (p.1, data) else p)⟩
  else
    ⟨df.cols ++ [(name, data)]⟩

/-- Number of rows (length of the first column; 0 when there are no columns). -/
def nRows (df : DF) : Nat :=
  match df.cols with
  | [] => 0
  | (_, d) :: _ => d.length

/-- pandas df.empty: true when either axis has length 0. -/
def isEmpty (df : DF) : Bool :=
  df.cols.isEmpty || df.nRows == 0

end DF

/-- Parse a decimal literal (optional sign, digits, optional fractional
part), the form of numeric strings pandas to_numeric accepts in the CSV
extracts; other strings are unparseable. -/
def parseDecimal (s : String) : Option ℚ :=
  let chars := s.toList
  let (sign, rest) :=
    match chars with
    | '-' :: r => ((-1 : ℚ), r)
    | '+' :: r => ((1 : ℚ), r)
    | r => ((1 : ℚ), r)
  let intPart := rest.takeWhile Char.isDigit
  let after := rest.dropWhile Char.isDigit
  let digitsVal (l : List Char) : ℚ :=
    l.foldl (fun acc c => acc * 10 + (c.toNat - '0'.toNat : ℕ)) 0
  match after with
  | [] =>
      if intPart.isEmpty then none
      else some (sign * digitsVal intPart)
  | '.' :: frac =>
      if frac.all Char.isDigit ∧ ¬ (intPart.isEmpty ∧ frac.isEmpty) then
        some (sign * (digitsVal intPart + digitsVal frac / (10 : ℚ) ^ frac.length))
      else none
  | _ => none

/-- pandas to_numeric(·, errors="coerce") on a single cell. -/
def toNumeric (c : Cell) : Option ℚ :=
  match c with
  | .num q => some q
  | .str s => parseDecimal s
  | _ => none

/-- pd.to_datetime(·, errors="coerce") on a single cell, at day
granularity: date-like cells parse, everything else coerces to NaT (the
numeric epoch interpretation of pandas is not exercised by the CSV data
and is not modelled). -/
def toDatetime (c : Cell) : Option ℤ :=
  match c with
  | .date d => some d
  | _ => none

/-- Python str() of a cell as pandas astype(str) applies it; str(np.nan)
is the string "nan". -/
def cellStr (c : Cell) : String :=
  match c with
  | .num q => toString q
  | .str s => s
  | .date d => toString d
  | .null => "nan"

/-- Numeric view of a cell used by pandas arithmetic: numbers are values,
strings and nulls behave as missing. -/
def cnum (c : Cell) : Option ℚ :=
  match c with
  | .num q => some q
  | _ => none

/-- The column-replacement map used by setCol. -/
def replEntry (name : String) (data : List Cell) (p : String × List Cell) :
    String × List Cell :=
  if p.1 == name then (p.1, data) else p

/-! Embedding of src/cases/inventory_analysis/src/cleaning.py. -/

/-- Whole-column pd.to_numeric(df[col], errors="coerce"). -/
def toNumericCell (c : Cell) : Cell :=
  match toNumeric c with
  | some q => Cell.num q
  | none => Cell.null

/-- Column effect of `df.loc[df[col] < 0, col] = np.nan`: a comparison with
NaN is false, so only numeric negative entries are masked. -/
def maskNegCell (c : Cell) : Cell :=
  match c with
  | Cell.num q => if q < 0 then Cell.null else Cell.num q
  | c => c

/-- Body of the per-column loop shared by the three cleaning functions:
coerce the column to numeric, then null out the negative entries. -/
def cleanNumStep (df : DF) (col : String) : DF :=
  if df.hasCol col then
    let df1 := df.setCol col (((df.getCol col).getD []).map toNumericCell)
    df1.setCol col (((df1.getCol col).getD []).map maskNegCell)
  else df

/-- The `for col in [...]` loop of the cleaning functions. -/
def cleanNumCols (names : List String) (df : DF) : DF :=
  names.foldl cleanNumStep df

/-- clean_inventory from cleaning.py (df.copy() is modelled in the heap
semantics further below; the data transformation itself is pure). -/
def clean_inventory (df : DF) : DF :=
  cleanNumCols ["on_hand", "price"] df

/-- clean_purchases from cleaning.py. -/
def clean_purchases (df : DF) : DF :=
  cleanNumCols ["quantity", "dollars", "purchase_price"] df

/-- clean_sales from cleaning.py. -/
def clean_sales (df : DF) : DF :=
  cleanNumCols ["sales_quantity", "sales_dollars", "sales_price"] df

/-- Specification-side single-pass description of the cleaning of one cell:
numeric coercion with unparseable entries as NaN, negatives nulled. -/
def cleanCellSpec (c : Cell) : Cell :=
  match toNumeric c with
  | some q => if q < 0 then Cell.null else Cell.num q
  | none => Cell.null

/-- Statement pattern of claim C6 for one cleaning function: the listed
columns, when present, are cleaned cell by cell, and every other column is
returned unchanged. -/
def CleansColumns (f : DF → DF) (names : List String) : Prop :=
  ∀ df name,
    (name ∉ names → (f df).getCol name = df.getCol name) ∧
    (name ∈ names → ∀ cells, df.getCol name = some cells →
      (f df).getCol name = some (cells.map cleanCellSpec))

/-- Concrete dataframe used to witness claim C6. -/
def dfC6 : DF :=
  ⟨[("on_hand", [Cell.num (-3), Cell.str "x", Cell.str "2.5", Cell.null]),
    ("vendor_id", [Cell.str "a", Cell.str "b"])]⟩

/-! Embedding of src/cases/inventory_analysis/src/features.py:
compute_eoq and compute_reorder_point.  A numeric pandas Series is a list
of optional numbers, none standing for NaN; arithmetic propagates NaN. -/

/-- Elementwise product with NaN propagation (pandas Series `*`). -/
def mulOpt (x y : Option ℚ) : Option ℚ :=
  x.bind fun a => y.map fun b => a * b

/-- compute_reorder_point from features.py: demand_rate * lead_time_days. -/
def compute_reorder_point (demand_rate lead_time_days : List (Option ℚ)) :
    List (Option ℚ) :=
  List.zipWith mulOpt demand_rate lead_time_days

/-- NaN-propagating product over the reals. -/
noncomputable def mulR (x y : Option ℝ) : Option ℝ :=
  x.bind fun a => y.map fun b => a * b

/-- NaN-propagating quotient over the reals.  compute_eoq only divides
after `.replace(0, np.nan)`, so the divisor is never the number 0 here. -/
noncomputable def divR (x y : Option ℝ) : Option ℝ :=
  x.bind fun a => y.map fun b => a / b

/-- np.sqrt with NaN for negative arguments and NaN propagation. -/
noncomputable def sqrtR (x : Option ℝ) : Option ℝ :=
  x.bind fun a => if a < 0 then none else some (Real.sqrt a)

/-- Series method `.replace(0, np.nan)` on one entry. -/
noncomputable def replaceZeroNaN (x : Option ℝ) : Option ℝ :=
  x.bind fun a => if a = 0 then none else some a

/-- compute_eoq from features.py:
np.sqrt((2 * demand * order_cost) / holding_cost.replace(0, np.nan)). -/
noncomputable def compute_eoq (demand : List (Option ℝ)) (order_cost : ℝ)
    (holding_cost : List (Option ℝ)) : List (Option ℝ) :=
  let numerator := demand.map fun d => mulR (mulR (some 2) d) (some order_cost)
  List.zipWith (fun n h => sqrtR (divR n h)) numerator
    (holding_cost.map replaceZeroNaN)

/-! Embedding of compute_abc from
src/cases/inventory_analysis/src/features.py. -/

/-- Sum of the value cells of the rows whose inventory_id equals k
(groupby("inventory_id", dropna=False)[value_col].sum(); the sum skips
NaN, an all-NaN group sums to 0). -/
def groupSum (ids vals : List Cell) (k : Cell) : ℚ :=
  (((ids.zip vals).filterMap
    (fun p => if p.1 = k then cnum p.2 else none))).sum

/-- Per-key sums of the value column, one entry per distinct key. -/
def groupSums (ids vals : List Cell) : List (Cell × ℚ) :=
  ids.dedup.map (fun k => (k, groupSum ids vals k))

/-- One output row of compute_abc. -/
structure AbcRow where
  inventory_id : Cell
  annual_value : ℚ
  cum_pct : ℚ
  abc_class : String
  deriving DecidableEq, Repr

/-- pd.cut(cum_pct, bins=[-inf, 0.8, 0.95, inf], labels=["A","B","C"]):
intervals are closed on the right. -/
def abcClassOf (p : ℚ) : String :=
  if p ≤ 4/5 then "A" else if p ≤ 19/20 then "B" else "C"

/-- Builds the output rows from the descending-sorted group sums, carrying
the running cumulative sum. -/
def abcRows (total : ℚ) : ℚ → List (Cell × ℚ) → List AbcRow
  | _, [] => []
  | acc, (k, v) :: rest =>
      { inventory_id := k, annual_value := v, cum_pct := (acc + v) / total,
        abc_class := abcClassOf ((acc + v) / total) } :: abcRows total (acc + v) rest

/-- compute_abc from features.py.  none models the KeyError raised when the
inventory_id column is missing while the guard passes; an empty row list
models the empty dataframe returned by the guards. -/
def compute_abc (df : DF) (value_col : String) : Option (List AbcRow) :=
  if df.isEmpty || !df.hasCol value_col then some [] else
  match df.getCol "inventory_id", df.getCol value_col with
  | some ids, some vals =>
      let sorted := (groupSums ids vals).insertionSort (fun a b => b.2 ≤ a.2)
      let total := (sorted.map Prod.snd).sum
      if total = 0 then some [] else some (abcRows total 0 sorted)
  | _, _ => none

/-- Concrete dataframe used to witness claim C1. -/
def dfC1 : DF :=
  ⟨[("inventory_id", [Cell.str "a", Cell.str "b", Cell.str "a"]),
    ("sales_dollars", [Cell.num 5, Cell.num 3, Cell.num 1])]⟩

/-! Embedding of top_n from src/shared/src/common_metrics.py. -/

/-- top_n: group by group_col (dropna=False), sum value_col, sort the sums
descending, keep the first n groups, reset_index.  When either column is
missing it returns an empty frame with exactly those two columns. -/
def top_n (df : DF) (group_col value_col : String) (n : ℕ) : DF :=
  if !df.hasCol group_col || !df.hasCol value_col then
    ⟨[(group_col, []), (value_col, [])]⟩
  else
    let ids := (df.getCol group_col).getD []
    let vals := (df.getCol value_col).getD []
    let taken := ((groupSums ids vals).insertionSort
      (fun a b : Cell × ℚ => b.2 ≤ a.2)).take n
    ⟨[(group_col, taken.map Prod.fst),
      (value_col, taken.map (fun p => Cell.num p.2))]⟩

/-! Embedding of add_features from src/cases/procurement/src/features.py
(df.copy() is modelled in the heap semantics further below). -/

/-- Elementwise product of two cells (pandas Series `*` with NaN
propagation; non-numeric cells behave as missing). -/
def cmul (a b : Cell) : Cell :=
  match cnum a, cnum b with
  | some x, some y => Cell.num (x * y)
  | _, _ => Cell.null

/-- Elementwise difference of two cells. -/
def csub (a b : Cell) : Cell :=
  match cnum a, cnum b with
  | some x, some y => Cell.num (x - y)
  | _, _ => Cell.null

/-- One cell of np.where(denom == 0, np.nan, numer / denom): NaN when the
denominator is the number 0 or when either operand is missing. -/
def ratioWhereNonzero (numer denom : Cell) : Cell :=
  match cnum denom with
  | some d =>
      if d = 0 then Cell.null else
        match cnum numer with
        | some x => Cell.num (x / d)
        | none => Cell.null
  | none => Cell.null

/-- One cell of the procurement lead time:
(to_datetime(delivery) - to_datetime(order)).dt.days, negatives masked to
NaN, then np.ceil on the non-null entries (the identity on whole days). -/
def leadTimeCell (od dd : Cell) : Cell :=
  match toDatetime dd, toDatetime od with
  | some d2, some d1 =>
      if d2 - d1 < 0 then Cell.null else Cell.num ((d2 - d1 : ℤ) : ℚ)
  | _, _ => Cell.null

/-- One cell of df["compliance"].astype(str).str.strip().str.lower().eq("no").astype(int). -/
def nonCompliantCell (c : Cell) : Cell :=
  Cell.num (if (cellStr c).trim.toLower = "no" then 1 else 0)

/-- One cell of np.where(non_compliant_flag == 1, negotiated_po_value, 0.0). -/
def spendAtRiskCell (flag value : Cell) : Cell :=
  match cnum flag with
  | some f => if f = 1 then value else Cell.num 0
  | none => Cell.num 0

/-- The order-status risk mapping of add_features. -/
def order_status_mapping : List (String × ℚ) :=
  [("delivered", 0), ("pending", 1/2), ("partially delivered", 7/10),
   ("cancelled", 1)]

/-- .str.strip().str.lower().map(mapping).fillna(0.2) on one status string. -/
def statusRisk (s : String) : ℚ :=
  (order_status_mapping.lookup s.trim.toLower).getD (1/5)

/-- One cell of the order_status_risk column. -/
def statusRiskCell (c : Cell) : Cell :=
  Cell.num (statusRisk (cellStr c))

/-- Column read that add_features uses after an `in df.columns` guard. -/
def col (df : DF) (name : String) : List Cell :=
  (df.getCol name).getD []

/-- Lead-time block of add_features. -/
def procStepLead (df : DF) : DF :=
  if df.hasCol "order_date" && df.hasCol "delivery_date" then
    df.setCol "procurement_lead_time_days"
      (List.zipWith leadTimeCell (col df "order_date") (col df "delivery_date"))
  else df

/-- gross_po_value block. -/
def procStepGross (df : DF) : DF :=
  if df.hasCol "quantity" && df.hasCol "unit_price" then
    df.setCol "gross_po_value"
      (List.zipWith cmul (col df "quantity") (col df "unit_price"))
  else df

/-- negotiated_po_value block. -/
def procStepNegotiated (df : DF) : DF :=
  if df.hasCol "quantity" && df.hasCol "negotiated_price" then
    df.setCol "negotiated_po_value"
      (List.zipWith cmul (col df "quantity") (col df "negotiated_price"))
  else df

/-- realized_savings / savings_rate_pct block. -/
def procStepSavings (df : DF) : DF :=
  if df.hasCol "gross_po_value" && df.hasCol "negotiated_po_value" then
    let df1 := df.setCol "realized_savings"
      (List.zipWith csub (col df "gross_po_value") (col df "negotiated_po_value"))
    df1.setCol "savings_rate_pct"
      (List.zipWith ratioWhereNonzero (col df1 "realized_savings")
        (col df1 "gross_po_value"))
  else df

/-- defect_rate_pct block. -/
def procStepDefectRate (df : DF) : DF :=
  if df.hasCol "defective_units_filled" && df.hasCol "quantity" then
    df.setCol "defect_rate_pct"
      (List.zipWith ratioWhereNonzero (col df "defective_units_filled")
        (col df "quantity"))
  else df

/-- defective_cost_exposure block. -/
def procStepDefectCost (df : DF) : DF :=
  if df.hasCol "defective_units_filled" && df.hasCol "negotiated_price" then
    df.setCol "defective_cost_exposure"
      (List.zipWith cmul (col df "defective_units_filled")
        (col df "negotiated_price"))
  else df

/-- non_compliant_flag block. -/
def procStepCompliance (df : DF) : DF :=
  if df.hasCol "compliance" then
    df.setCol "non_compliant_flag" ((col df "compliance").map nonCompliantCell)
  else df

/-- spend_at_risk block. -/
def procStepSpendAtRisk (df : DF) : DF :=
  if df.hasCol "negotiated_po_value" && df.hasCol "non_compliant_flag" then
    df.setCol "spend_at_risk"
      (List.zipWith spendAtRiskCell (col df "non_compliant_flag")
        (col df "negotiated_po_value"))
  else df

/-- order_status_risk block. -/
def procStepStatusRisk (df : DF) : DF :=
  if df.hasCol "order_status" then
    df.setCol "order_status_risk" ((col df "order_status").map statusRiskCell)
  else df

/-- add_features from src/cases/procurement/src/features.py: the nine
feature blocks applied in source order. -/
def proc_add_features (df : DF) : DF :=
  procStepStatusRisk (procStepSpendAtRisk (procStepCompliance
    (procStepDefectCost (procStepDefectRate (procStepSavings
      (procStepNegotiated (procStepGross (procStepLead df))))))))

/-- Concrete dataframe used to witness claim C4. -/
def dfC4 : DF :=
  ⟨[("order_status", [Cell.str " Delivered ", Cell.str "CANCELLED",
      Cell.str "??", Cell.null])]⟩

/-! Embedding of build_dim_date from src/shared/src/common_etl.py.
Timestamps are days since 1970-01-01; the proleptic Gregorian calendar
conversions implement the standard civil-from-days / days-from-civil
algorithms that underlie pandas datetime accessors. -/

/-- Gregorian (year, month, day) of a day number (days since 1970-01-01). -/
def civilFromDays (z : ℤ) : ℤ × ℤ × ℤ :=
  let z' := z + 719468
  let era := z'.fdiv 146097
  let doe := z' - era * 146097
  let yoe := (doe - doe.fdiv 1460 + doe.fdiv 36524 - doe.fdiv 146096).fdiv 365
  let y := yoe + era * 400
  let doy := doe - (365 * yoe + yoe.fdiv 4 - yoe.fdiv 100)
  let mp := (5 * doy + 2).fdiv 153
  let d := doy - (153 * mp + 2).fdiv 5 + 1
  let m := mp + (if mp < 10 then 3 else -9)
  (y + (if m ≤ 2 then 1 else 0), m, d)

/-- Day number of a Gregorian (year, month, day). -/
def daysFromCivil (y m d : ℤ) : ℤ :=
  let y' := if m ≤ 2 then y - 1 else y
  let era := y'.fdiv 400
  let yoe := y' - era * 400
  let doy := (153 * (m + (if 2 < m then -3 else 9)) + 2).fdiv 5 + d - 1
  let doe := yoe * 365 + yoe.fdiv 4 - yoe.fdiv 100 + doy
  era * 146097 + doe - 719468

/-- strftime("%Y%m%d").astype(int) of a day number. -/
def dateKey (z : ℤ) : ℤ :=
  (civilFromDays z).1 * 10000 + (civilFromDays z).2.1 * 100 + (civilFromDays z).2.2

/-- pandas .dt.weekday (Monday = 0): 1970-01-01 was a Thursday. -/
def weekday0 (z : ℤ) : ℤ :=
  (z + 3).emod 7

/-- Gregorian leap year. -/
def isLeap (y : ℤ) : Bool :=
  (y.emod 4 == 0 && y.emod 100 != 0) || y.emod 400 == 0

/-- Number of ISO weeks in a year: 53 when Jan 1 falls on a Thursday, or
on a Wednesday of a leap year. -/
def isoWeeksInYear (y : ℤ) : ℤ :=
  let jan1dow := weekday0 (daysFromCivil y 1 1)
  if jan1dow = 3 ∨ (isLeap y && jan1dow == 2) then 53 else 52

/-- ISO-8601 week number (pandas .dt.isocalendar().week). -/
def isoWeekOfYear (z : ℤ) : ℤ :=
  let y := (civilFromDays z).1
  let doy := z - daysFromCivil y 1 1 + 1
  let w := (doy - (weekday0 z + 1) + 10).fdiv 7
  if w < 1 then isoWeeksInYear (y - 1)
  else if isoWeeksInYear y < w then 1
  else w

/-- strftime("%B") month names. -/
def monthName (m : ℤ) : String :=
  (([("January" : String), "February", "March", "April", "May", "June",
     "July", "August", "September", "October", "November", "December"]).get?
    (m - 1).toNat).getD ""

/-- strftime("%A") day names, indexed by pandas weekday + 1. -/
def dayName (dow : ℤ) : String :=
  (([("Monday" : String), "Tuesday", "Wednesday", "Thursday", "Friday",
     "Saturday", "Sunday"]).get? (dow - 1).toNat).getD ""

/-- One row of the date dimension. -/
structure DimRow where
  date : ℤ
  date_key : ℤ
  year : ℤ
  quarter : ℤ
  month : ℤ
  month_name : String
  day : ℤ
  day_of_week : ℤ
  day_name : String
  week_of_year : ℤ
  is_weekend : ℤ
  deriving DecidableEq, Repr

/-- A date-dimension frame: its column names and its typed rows. -/
structure DimDateFrame where
  columns : List String
  rows : List DimRow
  deriving DecidableEq, Repr

/-- Column order of the early-return branch of build_dim_date. -/
def dimDateColumnsEmpty : List String :=
  ["date_key", "date", "year", "quarter", "month", "month_name", "day",
   "day_of_week", "day_name", "week_of_year", "is_weekend"]

/-- Column order produced by the assignments of the main branch. -/
def dimDateColumnsMain : List String :=
  ["date", "date_key", "year", "quarter", "month", "month_name", "day",
   "day_of_week", "day_name", "week_of_year", "is_weekend"]

/-- The row build_dim_date derives from one day of the date range. -/
def mkDimRow (d : ℤ) : DimRow :=
  let dow := weekday0 d + 1
  { date := d
    date_key := dateKey d
    year := (civilFromDays d).1
    quarter := ((civilFromDays d).2.1 + 2).fdiv 3
    month := (civilFromDays d).2.1
    month_name := monthName (civilFromDays d).2.1
    day := (civilFromDays d).2.2
    day_of_week := dow
    day_name := dayName dow
    week_of_year := isoWeekOfYear d
    is_weekend := if dow = 6 ∨ dow = 7 then 1 else 0 }

/-- build_dim_date from common_etl.py: one row per day of
pd.date_range(min_date, max_date, freq="D"); an empty eleven-column frame
when either bound is NaT. -/
def build_dim_date (min_date max_date : Option ℤ) : DimDateFrame :=
  match min_date, max_date with
  | some a, some b =>
      ⟨dimDateColumnsMain,
        ((List.range (b - a + 1).toNat).map (fun i : ℕ => a + (i : ℤ))).map
          mkDimRow⟩
  | _, _ => ⟨dimDateColumnsEmpty, []⟩

/-! Embedding of _to_snake and canonicalize_columns from
src/shared/src/common_etl.py. -/

/-- re.sub(r"[^0-9a-zA-Z]+", "_", ·): each maximal run of non-alphanumeric
characters becomes one underscore; the flag records an open run. -/
def subRuns (inRun : Bool) : List Char → List Char
  | [] => []
  | c :: rest =>
      if c.isAlphanum then c :: subRuns false rest
      else if inRun then subRuns true rest
      else '_' :: subRuns true rest

/-- re.sub(r"([a-z0-9])([A-Z])", r"\1_\2", ·): scanning resumes after each
two-character match. -/
def camelSub : List Char → List Char
  | [] => []
  | [c] => [c]
  | c1 :: c2 :: rest =>
      if (c1.isLower || c1.isDigit) && c2.isUpper then
        c1 :: '_' :: c2 :: camelSub rest
      else c1 :: camelSub (c2 :: rest)

/-- re.sub(r"_+", "_", ·). -/
def collapseUnd (prevUnd : Bool) : List Char → List Char
  | [] => []
  | c :: rest =>
      if c = '_' then
        if prevUnd then collapseUnd true rest
        else '_' :: collapseUnd true rest
      else c :: collapseUnd false rest

/-- Python str.strip(): whitespace removed from both ends. -/
def trimChars (l : List Char) : List Char :=
  (((l.dropWhile Char.isWhitespace).reverse).dropWhile Char.isWhitespace).reverse

/-- Python str.strip("_"). -/
def trimUnderscores (l : List Char) : List Char :=
  (((l.dropWhile (fun c => c = '_')).reverse).dropWhile
    (fun c => c = '_')).reverse

/-- The Python helper _to_snake from common_etl.py: strip, "/" to space,
non-alphanumeric runs to "_", a camelCase boundary split, underscore-run
collapse, strip("_"), lowercase. -/
def to_snake (s : String) : String :=
  let l0 := trimChars s.data
  let l1 := l0.map (fun c => if c = '/' then ' ' else c)
  let l2 := subRuns false l1
  let l3 := camelSub l2
  let l4 := collapseUnd false l3
  let l5 := trimUnderscores l4
  String.mk (l5.map Char.toLower)

/-- seen[c] += 1 on the seen dictionary. -/
def bumpSeen (seen : List (String × ℕ)) (c : String) : List (String × ℕ) :=
  seen.map (fun p => if p.1 = c then (p.1, p.2 + 1) else p)

/-- The suffix-disambiguation loop of canonicalize_columns. -/
def canonLoop : List String → List (String × ℕ) → List String
  | [], _ => []
  | c :: rest, seen =>
      match seen.lookup c with
      | none => c :: canonLoop rest ((c, 1) :: seen)
      | some k => (c ++ "_" ++ toString (k + 1)) :: canonLoop rest (bumpSeen seen c)

/-- canonicalize_columns from common_etl.py: snake-case every column name,
then disambiguate repeats with occurrence-count suffixes. -/
def canonicalize_columns (df : DF) : DF :=
  ⟨(canonLoop ((df.cols.map Prod.fst).map to_snake) []).zip
    (df.cols.map Prod.snd)⟩

/-! Embedding of compute_kpis from
src/cases/procurement-kpi-analysis/src/kpis.py.  The returned dict is an
ordered list of (key, value) entries; every column access in the source is
guarded by a column-existence check, which the embedding renders by
pattern matching on getCol. -/

/-- A KPI dictionary value: Python int, float (none = NaN), string,
a raw cell (group label), or None. -/
inductive KpiVal where
  | int (z : ℤ)
  | num (x : Option ℚ)
  | str (s : String)
  | cellv (c : Cell)
  | none_
  deriving DecidableEq, Repr

/-- Series.nunique(dropna=True). -/
def nuniqueDropna (cells : List Cell) : ℕ :=
  ((cells.filter (fun c => c ≠ Cell.null)).dedup).length

/-- Series.sum() with skipna (an empty or all-NaN column sums to 0). -/
def colSum (cells : List Cell) : ℚ :=
  (cells.filterMap cnum).sum

/-- Series.mean() with skipna (NaN when no numeric entries). -/
def colMean (cells : List Cell) : Option ℚ :=
  let v := cells.filterMap cnum
  if v.length = 0 then none else some (v.sum / v.length)

/-- Series.quantile(0.75) with linear interpolation. -/
def quantile75 (cells : List Cell) : Option ℚ :=
  let v := (cells.filterMap cnum).insertionSort (fun a b : ℚ => a ≤ b)
  if v.length = 0 then none
  else
    let h : ℚ := 3 * ((v.length : ℚ) - 1) / 4
    let lo := ⌊h⌋
    let vlo := (v.get? lo.toNat).getD 0
    let vhi := (v.get? (lo.toNat + 1)).getD vlo
    some (vlo + (h - lo) * (vhi - vlo))

/-- (series > quantile75).mean(): the boolean comparison is False on NaN
entries and on a NaN threshold, and the mean runs over all rows. -/
def lateRate (cells : List Cell) : Option ℚ :=
  let cnt :=
    match quantile75 cells with
    | some t => ((cells.filterMap cnum).filter (fun v => t < v)).length
    | none => 0
  if cells.length = 0 then none
  else some ((cnt : ℚ) / (cells.length : ℚ))

/-- Timestamp.date().isoformat() of a day number. -/
def isoDateStr (d : ℤ) : String :=
  let c := civilFromDays d
  let pad2 : ℤ → String := fun n => if n < 10 then "0" ++ toString n else toString n
  toString c.1 ++ "-" ++ pad2 c.2.1 ++ "-" ++ pad2 c.2.2

/-- Minimum of the parseable dates (Series.min skips NaT). -/
def dateMin (cells : List Cell) : Option ℤ :=
  (cells.filterMap toDatetime).min?

/-- Maximum of the parseable dates. -/
def dateMax (cells : List Cell) : Option ℤ :=
  (cells.filterMap toDatetime).max?

/-- to_datetime(col, errors="coerce").isna().mean(). -/
def missingRate (cells : List Cell) : Option ℚ :=
  if cells.length = 0 then none
  else some (((cells.filter (fun c => toDatetime c = none)).length : ℚ)
    / (cells.length : ℚ))

/-- groupby(keys, dropna=False)[vals].sum().sort_values(ascending=False)
.head(1): the label of a group with the largest sum, none when there are
no rows. -/
def topGroupKey (keys vals : List Cell) : Option Cell :=
  (((groupSums keys vals).insertionSort
    (fun a b : Cell × ℚ => b.2 ≤ a.2)).head?).map Prod.fst

/-- supplier block of compute_kpis. -/
def kpiSupplier (df : DF) : List (String × KpiVal) :=
  match df.getCol "supplier" with
  | some c => [("supplier_count", KpiVal.int (nuniqueDropna c : ℤ))]
  | none => []

/-- gross_po_value block. -/
def kpiGross (df : DF) : List (String × KpiVal) :=
  match df.getCol "gross_po_value" with
  | some c => [("total_gross_po_value", KpiVal.num (some (colSum c)))]
  | none => []

/-- negotiated_po_value block. -/
def kpiNegotiated (df : DF) : List (String × KpiVal) :=
  match df.getCol "negotiated_po_value" with
  | some c => [("total_negotiated_po_value", KpiVal.num (some (colSum c)))]
  | none => []

/-- realized_savings block: avg_savings_rate_pct is written whenever
realized_savings exists, with value None when savings_rate_pct does not. -/
def kpiRealized (df : DF) : List (String × KpiVal) :=
  match df.getCol "realized_savings" with
  | some c =>
      [("total_realized_savings", KpiVal.num (some (colSum c))),
       ("avg_savings_rate_pct",
         match df.getCol "savings_rate_pct" with
         | some c2 => KpiVal.num (colMean c2)
         | none => KpiVal.none_)]
  | none => []

/-- defective_cost_exposure block. -/
def kpiDefectCost (df : DF) : List (String × KpiVal) :=
  match df.getCol "defective_cost_exposure" with
  | some c => [("total_defective_cost_exposure", KpiVal.num (some (colSum c)))]
  | none => []

/-- defect_rate_pct block. -/
def kpiDefectRate (df : DF) : List (String × KpiVal) :=
  match df.getCol "defect_rate_pct" with
  | some c => [("avg_defect_rate_pct", KpiVal.num (colMean c))]
  | none => []

/-- procurement_lead_time_days block. -/
def kpiLead (df : DF) : List (String × KpiVal) :=
  match df.getCol "procurement_lead_time_days" with
  | some c =>
      [("avg_lead_time_days", KpiVal.num (colMean c)),
       ("late_delivery_threshold_days", KpiVal.num (quantile75 c)),
       ("late_delivery_rate", KpiVal.num (lateRate c))]
  | none => []

/-- non_compliant_flag block. -/
def kpiCompliance (df : DF) : List (String × KpiVal) :=
  match df.getCol "non_compliant_flag" with
  | some c => [("non_compliance_rate", KpiVal.num (colMean c))]
  | none => []

/-- spend_at_risk block. -/
def kpiSpendAtRisk (df : DF) : List (String × KpiVal) :=
  match df.getCol "spend_at_risk" with
  | some c => [("total_spend_at_risk", KpiVal.num (some (colSum c)))]
  | none => []

/-- total_orders entry (always present). -/
def kpiTotalOrders (df : DF) : List (String × KpiVal) :=
  [("total_orders", KpiVal.int (df.nRows : ℤ))]

/-- order_date block: min and max only when some date parses. -/
def kpiOrderDates (df : DF) : List (String × KpiVal) :=
  match df.getCol "order_date" with
  | some c =>
      match dateMin c, dateMax c with
      | some mn, some mx =>
          [("order_date_min", KpiVal.str (isoDateStr mn)),
           ("order_date_max", KpiVal.str (isoDateStr mx))]
      | _, _ => []
  | none => []

/-- delivery_date block: the missing rate is always written, min and max
only when some date parses. -/
def kpiDeliveryDates (df : DF) : List (String × KpiVal) :=
  match df.getCol "delivery_date" with
  | some c =>
      ("missing_delivery_rate", KpiVal.num (missingRate c)) ::
        (match dateMin c, dateMax c with
         | some mn, some mx =>
             [("delivery_date_min", KpiVal.str (isoDateStr mn)),
              ("delivery_date_max", KpiVal.str (isoDateStr mx))]
         | _, _ => [])
  | none => []

/-- top_savings_supplier block. -/
def kpiTopSupplier (df : DF) : List (String × KpiVal) :=
  match df.getCol "supplier", df.getCol "realized_savings" with
  | some ks, some vs =>
      match topGroupKey ks vs with
      | some k => [("top_savings_supplier", KpiVal.cellv k)]
      | none => []
  | _, _ => []

/-- top_savings_category block. -/
def kpiTopCategory (df : DF) : List (String × KpiVal) :=
  match df.getCol "item_category", df.getCol "realized_savings" with
  | some ks, some vs =>
      match topGroupKey ks vs with
      | some k => [("top_savings_category", KpiVal.cellv k)]
      | none => []
  | _, _ => []

/-- compute_kpis from kpis.py: the KPI entries in source order. -/
def compute_kpis (df : DF) : List (String × KpiVal) :=
  kpiSupplier df ++ kpiGross df ++ kpiNegotiated df ++ kpiRealized df
    ++ kpiDefectCost df ++ kpiDefectRate df ++ kpiLead df ++ kpiCompliance df
    ++ kpiSpendAtRisk df ++ kpiTotalOrders df ++ kpiOrderDates df
    ++ kpiDeliveryDates df ++ kpiTopSupplier df ++ kpiTopCategory df

/-! Embedding of add_features from
src/cases/supply-chain-analysis/src/features.py.  Every division in the
source is guarded by a replace of the zero denominators, so the exact
division-by-zero behaviour of pandas is never exercised. -/

/-- Elementwise sum of two cells. -/
def cadd (a b : Cell) : Cell :=
  match cnum a, cnum b with
  | some x, some y => Cell.num (x + y)
  | _, _ => Cell.null

/-- Elementwise quotient of two cells. -/
def cdiv (a b : Cell) : Cell :=
  match cnum a, cnum b with
  | some x, some y => Cell.num (x / y)
  | _, _ => Cell.null

/-- Series.replace(0, np.nan) on one cell. -/
def replace0NaNCell (c : Cell) : Cell :=
  if cnum c = some 0 then Cell.null else c

/-- Series.replace(0, 1) on one cell. -/
def replace0OneCell (c : Cell) : Cell :=
  if cnum c = some 0 then Cell.num 1 else c

/-- Series.fillna(0) on one cell. -/
def fillna0 (c : Cell) : Cell :=
  if c = Cell.null then Cell.num 0 else c

/-- defect_rate_scaled block: scale by 1/100 only when the column maximum
(skipna) is a number above 1.5. -/
def scmStepDefectScaled (df : DF) : DF :=
  if df.hasCol "defect_rates" then
    let c := col df "defect_rates"
    let scale :=
      match (c.filterMap cnum).max? with
      | some m => decide ((3 : ℚ)/2 < m)
      | none => false
    if scale then
      df.setCol "defect_rate_scaled" (c.map (fun x => cdiv x (Cell.num 100)))
    else
      df.setCol "defect_rate_scaled" c
  else df

/-- unit_margin_proxy block. -/
def scmStepUnitMargin (df : DF) : DF :=
  if df.hasCol "revenue_generated" && df.hasCol "number_of_products_sold"
      && df.hasCol "price" then
    let units := (col df "number_of_products_sold").map replace0NaNCell
    df.setCol "unit_margin_proxy"
      (List.zipWith csub
        (List.zipWith cdiv (col df "revenue_generated") units)
        (col df "price"))
  else df

/-- demand_signal block. -/
def scmStepDemandSignal (df : DF) : DF :=
  if df.hasCol "number_of_products_sold" && df.hasCol "availability" then
    df.setCol "demand_signal"
      (List.zipWith cdiv (col df "number_of_products_sold")
        ((col df "availability").map replace0OneCell))
  else df

/-- stock_cover_proxy block. -/
def scmStepStockCover (df : DF) : DF :=
  if df.hasCol "stock_levels" && df.hasCol "number_of_products_sold" then
    df.setCol "stock_cover_proxy"
      (List.zipWith cdiv (col df "stock_levels")
        ((col df "number_of_products_sold").map replace0OneCell))
  else df

/-- total_logistics_cost block, with the nested costs addition. -/
def scmStepLogistics (df : DF) : DF :=
  if df.hasCol "shipping_costs" then
    let df1 := df.setCol "total_logistics_cost"
      ((col df "shipping_costs").map fillna0)
    if df1.hasCol "costs" then
      df1.setCol "total_logistics_cost"
        (List.zipWith cadd (col df1 "total_logistics_cost")
          ((col df1 "costs").map fillna0))
    else df1
  else df

/-- total_manufacturing_cost block. -/
def scmStepManufacturing (df : DF) : DF :=
  if df.hasCol "manufacturing_costs" then
    if df.hasCol "production_volumes" then
      df.setCol "total_manufacturing_cost"
        (List.zipWith cmul (col df "manufacturing_costs")
          (col df "production_volumes"))
    else
      df.setCol "total_manufacturing_cost" (col df "manufacturing_costs")
  else df

/-- total_cost_proxy block. -/
def scmStepTotalCost (df : DF) : DF :=
  if df.hasCol "total_logistics_cost" && df.hasCol "total_manufacturing_cost" then
    df.setCol "total_cost_proxy"
      (List.zipWith cadd (col df "total_logistics_cost")
        (col df "total_manufacturing_cost"))
  else df

/-- defect_cost_risk_proxy block. -/
def scmStepDefectRisk (df : DF) : DF :=
  if df.hasCol "defect_rate_scaled" && df.hasCol "total_cost_proxy" then
    df.setCol "defect_cost_risk_proxy"
      (List.zipWith cmul (col df "defect_rate_scaled")
        (col df "total_cost_proxy"))
  else df

/-- logistics_cost_per_unit block. -/
def scmStepLogisticsPerUnit (df : DF) : DF :=
  if df.hasCol "total_logistics_cost" && df.hasCol "number_of_products_sold" then
    df.setCol "logistics_cost_per_unit"
      (List.zipWith cdiv (col df "total_logistics_cost")
        ((col df "number_of_products_sold").map replace0OneCell))
  else df

/-- add_features from src/cases/supply-chain-analysis/src/features.py. -/
def scm_add_features (df : DF) : DF :=
  scmStepLogisticsPerUnit (scmStepDefectRisk (scmStepTotalCost
    (scmStepManufacturing (scmStepLogistics (scmStepStockCover
      (scmStepDemandSignal (scmStepUnitMargin (scmStepDefectScaled df))))))))

/-! Heap semantics for the frame-effect claim: dataframes are objects on a
heap, a function receives a reference to its argument, df.copy() allocates
a fresh object, and the in-place column assignments of the body mutate
only that fresh object. -/

/-- An object heap of dataframes, addressed by allocation order. -/
abbrev Heap := List DF

/-- Allocation: append the object, return its reference. -/
def heapAlloc (h : Heap) (df : DF) : Heap × ℕ :=
  (h ++ [df], h.length)

/-- clean_inventory as a heap computation: read the argument object,
allocate the copy, apply the in-place column updates to the copy. -/
def clean_inventory_heap (h : Heap) (r : ℕ) : Heap × ℕ :=
  let df := (h.get? r).getD default
  let alloc := heapAlloc h df
  (alloc.1.set alloc.2 (clean_inventory df), alloc.2)

/-- The procurement add_features as a heap computation. -/
def proc_add_features_heap (h : Heap) (r : ℕ) : Heap × ℕ :=
  let df := (h.get? r).getD default
  let alloc := heapAlloc h df
  (alloc.1.set alloc.2 (proc_add_features df), alloc.2)

/-- The supply-chain add_features as a heap computation. -/
def scm_add_features_heap (h : Heap) (r : ℕ) : Heap × ℕ :=
  let df := (h.get? r).getD default
  let alloc := heapAlloc h df
  (alloc.1.set alloc.2 (scm_add_features df), alloc.2)

/-- Concrete dataframe used to witness claim C10. -/
def dfC10 : DF := ⟨[("on_hand", [Cell.num (-1), Cell.str "x"])]⟩

section ColLemmas

variable (name other : String) (data : List Cell)

theorem find?_map_repl_self (l : List (String × List Cell))
    (h : l.any (fun p => p.1 == name) = true) :
    ((l.map (replEntry name data)).find? (fun p => p.1 == name)).map Prod.snd
      = some data := by
  induction l with
  | nil => simp at h
  | cons q rest ih =>
    by_cases hq : q.1 = name
    · have hb : (q.1 == name) = true := beq_iff_eq.mpr hq
      simp [replEntry, List.find?_cons, hb]
    · have hb : (q.1 == name) = false := beq_eq_false_iff_ne.mpr hq
      simp only [List.any_cons, hb, Bool.false_or] at h
      simp only [List.map_cons, replEntry, hb, Bool.false_eq_true, if_false,
        List.find?_cons]
      exact ih h

theorem find?_append_self (l : List (String × List Cell))
    (h : l.any (fun p => p.1 == name) = false) :
    ((l ++ [(name, data)]).find? (fun p => p.1 == name)).map Prod.snd
      = some data := by
  induction l with
  | nil => simp
  | cons q rest ih =>
    simp only [List.any_cons, Bool.or_eq_false_iff] at h
    simp only [List.cons_append, List.find?_cons, h.1]
    exact ih h.2

theorem find?_map_repl_ne (l : List (String × List Cell)) (h : name ≠ other) :
    ((l.map (replEntry name data)).find? (fun p => p.1 == other)).map Prod.snd
      = (l.find? (fun p => p.1 == other)).map Prod.snd := by
  induction l with
  | nil => simp
  | cons q rest ih =>
    by_cases hq : q.1 = name
    · have ho : (q.1 == other) = false :=
        beq_eq_false_iff_ne.mpr (fun hc => h (hq ▸ hc))
      have hb : (q.1 == name) = true := beq_iff_eq.mpr hq
      simp only [List.map_cons, replEntry, hb, if_true, List.find?_cons, ho]
      exact ih
    · have hb : (q.1 == name) = false := beq_eq_false_iff_ne.mpr hq
      by_cases ho : q.1 = other
      · have hbo : (q.1 == other) = true := beq_iff_eq.mpr ho
        simp [replEntry, List.find?_cons, hb, hbo]
      · have hbo : (q.1 == other) = false := beq_eq_false_iff_ne.mpr ho
        simp only [List.map_cons, replEntry, hb, Bool.false_eq_true, if_false,
          List.find?_cons, hbo]
        exact ih

theorem find?_append_ne (l : List (String × List Cell)) (h : name ≠ other) :
    ((l ++ [(name, data)]).find? (fun p => p.1 == other)).map Prod.snd
      = (l.find? (fun p => p.1 == other)).map Prod.snd := by
  induction l with
  | nil =>
    have hb : (name == other) = false := beq_eq_false_iff_ne.mpr h
    simp [List.find?_cons, hb]
  | cons q rest ih =>
    by_cases ho : q.1 = other
    · have hbo : (q.1 == other) = true := beq_iff_eq.mpr ho
      simp [List.find?_cons, hbo]
    · have hbo : (q.1 == other) = false := beq_eq_false_iff_ne.mpr ho
      simp only [List.cons_append, List.find?_cons, hbo]
      exact ih

theorem any_map_repl (l : List (String × List Cell)) :
    (l.map (replEntry name data)).any (fun p => p.1 == other)
      = l.any (fun p => p.1 == other) := by
  induction l with
  | nil => rfl
  | cons q rest ih =>
    have : (replEntry name data q).1 = q.1 := by
      by_cases hq : q.1 = name <;> simp [replEntry, hq]
    simp only [List.map_cons, List.any_cons, this, ih]

end ColLemmas

theorem getCol_setCol_self (df : DF) (name : String) (data : List Cell) :
    (df.setCol name data).getCol name = some data := by
  unfold DF.setCol
  split
  case isTrue h =>
    show ((df.cols.map (replEntry name data)).find? (fun p => p.1 == name)).map
      Prod.snd = some data
    exact find?_map_repl_self name data df.cols h
  case isFalse h =>
    rw [Bool.not_eq_true] at h
    exact find?_append_self name data df.cols h

theorem getCol_setCol_ne (df : DF) {name other : String} (h : name ≠ other)
    (data : List Cell) :
    (df.setCol name data).getCol other = df.getCol other := by
  unfold DF.setCol
  split
  case isTrue _ =>
    exact find?_map_repl_ne name other data df.cols h
  case isFalse _ =>
    exact find?_append_ne name other data df.cols h

theorem hasCol_setCol (df : DF) (name other : String) (data : List Cell) :
    (df.setCol name data).hasCol other = (df.hasCol other || name == other) := by
  unfold DF.setCol
  split
  case isTrue h =>
    show (df.cols.map (replEntry name data)).any (fun p => p.1 == other) = _
    rw [any_map_repl]
    by_cases ho : name = other
    · have : df.hasCol other = true := ho ▸ h
      simp [DF.hasCol] at this ⊢
      simp [this]
    · simp [DF.hasCol, ho]
  case isFalse h =>
    by_cases ho : name = other <;> simp [DF.hasCol, List.any_append, ho]

theorem hasCol_iff_getCol_isSome (df : DF) (name : String) :
    df.hasCol name = true ↔ (df.getCol name).isSome := by
  unfold DF.hasCol DF.getCol
  induction df.cols with
  | nil => simp
  | cons q rest ih =>
    by_cases hq : q.1 = name
    · have hb : (q.1 == name) = true := beq_iff_eq.mpr hq
      simp [List.find?_cons, hb]
    · have hb : (q.1 == name) = false := beq_eq_false_iff_ne.mpr hq
      simp only [List.any_cons, hb, Bool.false_or, List.find?_cons]
      exact ih

theorem maskNeg_toNumeric (cells : List Cell) :
    (cells.map toNumericCell).map maskNegCell = cells.map cleanCellSpec := by
  rw [List.map_map]
  apply List.map_congr_left
  intro c _
  unfold Function.comp toNumericCell maskNegCell cleanCellSpec
  cases h : toNumeric c <;> simp

theorem cleanNumStep_getCol_ne (df : DF) {col name : String} (h : col ≠ name) :
    (cleanNumStep df col).getCol name = df.getCol name := by
  unfold cleanNumStep
  split
  · rw [getCol_setCol_ne _ h, getCol_setCol_ne _ h]
  · rfl

theorem cleanNumStep_getCol_self (df : DF) (col : String) (cells : List Cell)
    (h : df.getCol col = some cells) :
    (cleanNumStep df col).getCol col = some (cells.map cleanCellSpec) := by
  unfold cleanNumStep
  have hc : df.hasCol col = true :=
    (hasCol_iff_getCol_isSome df col).mpr (by simp [h])
  rw [if_pos hc, h]
  simp only [Option.getD_some, getCol_setCol_self]
  rw [maskNeg_toNumeric]

theorem cleanNumStep_hasCol (df : DF) (col name : String) :
    (cleanNumStep df col).hasCol name = df.hasCol name := by
  unfold cleanNumStep
  split
  case isTrue h =>
    rw [hasCol_setCol, hasCol_setCol]
    by_cases hc : col = name
    · subst hc
      simp [h]
    · have : (col == name) = false := beq_eq_false_iff_ne.mpr hc
      simp [this]
  case isFalse _ => rfl

theorem cleanNumCols_getCol_notMem (names : List String) (df : DF)
    {name : String} (h : name ∉ names) :
    (cleanNumCols names df).getCol name = df.getCol name := by
  induction names generalizing df with
  | nil => rfl
  | cons c cs ih =>
    have hcn : c ≠ name := fun hc => h (hc ▸ List.mem_cons_self c cs)
    have hcs : name ∉ cs := fun hc => h (List.mem_cons_of_mem _ hc)
    show (cleanNumCols cs (cleanNumStep df c)).getCol name = _
    rw [ih _ hcs, cleanNumStep_getCol_ne df hcn]

theorem cleanNumCols_getCol_mem (names : List String) (df : DF)
    {name : String} (hnd : names.Nodup) (hmem : name ∈ names)
    (cells : List Cell) (h : df.getCol name = some cells) :
    (cleanNumCols names df).getCol name = some (cells.map cleanCellSpec) := by
  induction names generalizing df with
  | nil => simp at hmem
  | cons c cs ih =>
    show (cleanNumCols cs (cleanNumStep df c)).getCol name = _
    rcases List.mem_cons.mp hmem with hc | hc
    · subst hc
      have hnotin : name ∉ cs := (List.nodup_cons.mp hnd).1
      rw [cleanNumCols_getCol_notMem cs _ hnotin]
      exact cleanNumStep_getCol_self df name cells h
    · have hcn : c ≠ name := by
        rintro rfl
        exact (List.nodup_cons.mp hnd).1 hc
      exact ih _ (List.nodup_cons.mp hnd).2 hc
        (by rw [cleanNumStep_getCol_ne df hcn]; exact h)

theorem cleansColumns_of_nodup (names : List String) (hnd : names.Nodup) :
    CleansColumns (cleanNumCols names) names := by
  intro df name
  refine ⟨fun h => cleanNumCols_getCol_notMem names df h, ?_⟩
  intro hmem cells h
  exact cleanNumCols_getCol_mem names df hnd hmem cells h

theorem abcRows_map_id (total acc : ℚ) (l : List (Cell × ℚ)) :
    (abcRows total acc l).map AbcRow.inventory_id = l.map Prod.fst := by
  induction l generalizing acc with
  | nil => rfl
  | cons p rest ih => cases p; simp [abcRows, ih]

theorem abcRows_map_val (total acc : ℚ) (l : List (Cell × ℚ)) :
    (abcRows total acc l).map AbcRow.annual_value = l.map Prod.snd := by
  induction l generalizing acc with
  | nil => rfl
  | cons p rest ih => cases p; simp [abcRows, ih]

theorem abcRows_mem (total acc : ℚ) (l : List (Cell × ℚ)) (r : AbcRow)
    (h : r ∈ abcRows total acc l) :
    (r.inventory_id, r.annual_value) ∈ l
      ∧ r.abc_class = abcClassOf r.cum_pct := by
  induction l generalizing acc with
  | nil => simp [abcRows] at h
  | cons p rest ih =>
    obtain ⟨k, v⟩ := p
    rcases List.mem_cons.mp h with hr | hr
    · subst hr
      exact ⟨List.mem_cons_self _ _, rfl⟩
    · obtain ⟨h1, h2⟩ := ih _ hr
      exact ⟨List.mem_cons_of_mem _ h1, h2⟩

theorem abcRows_length (total acc : ℚ) (l : List (Cell × ℚ)) :
    (abcRows total acc l).length = l.length := by
  induction l generalizing acc with
  | nil => rfl
  | cons p rest ih => cases p; simp [abcRows, ih]

theorem abcRows_cum_pct (total : ℚ) (l : List (Cell × ℚ)) (acc : ℚ) (i : ℕ)
    (hi : i < (abcRows total acc l).length) :
    ((abcRows total acc l).get ⟨i, hi⟩).cum_pct
      = (acc + ((l.map Prod.snd).take (i + 1)).sum) / total := by
  induction l generalizing acc i with
  | nil => simp [abcRows] at hi
  | cons p rest ih =>
    obtain ⟨k, v⟩ := p
    cases i with
    | zero => simp [abcRows]
    | succ j =>
      have hj : j < (abcRows total (acc + v) rest).length := by
        simpa [abcRows] using hi
      have := ih (acc + v) j hj
      simp only [abcRows, List.get_cons_succ, this, List.map_cons,
        List.take_succ_cons, List.sum_cons]
      ring_nf

theorem abcClassOf_cases (p : ℚ) :
    (abcClassOf p = "A" ↔ p ≤ 4/5)
    ∧ (abcClassOf p = "B" ↔ 4/5 < p ∧ p ≤ 19/20)
    ∧ (abcClassOf p = "C" ↔ 19/20 < p) := by
  unfold abcClassOf
  by_cases h1 : p ≤ 4/5
  · simp only [if_pos h1]
    refine ⟨by simp [h1], ?_, ?_⟩
    · constructor
      · intro h; exact absurd h (by decide)
      · rintro ⟨h, _⟩; exact absurd h1 (not_le.mpr h)
    · constructor
      · intro h; exact absurd h (by decide)
      · intro h; exact absurd h1 (not_le.mpr (lt_trans (by norm_num) h))
  · by_cases h2 : p ≤ 19/20
    · simp only [if_neg h1, if_pos h2]
      refine ⟨?_, by simp [not_le.mp h1, h2], ?_⟩
      · constructor
        · intro h; exact absurd h (by decide)
        · intro h; exact absurd h h1
      · constructor
        · intro h; exact absurd h (by decide)
        · intro h; exact absurd h2 (not_le.mpr h)
    · simp only [if_neg h1, if_neg h2]
      refine ⟨?_, ?_, by simp [not_le.mp h2]⟩
      · constructor
        · intro h; exact absurd h (by decide)
        · intro h; exact absurd (not_le.mp h2)
            (not_lt.mpr (le_trans h (by norm_num)))
      · constructor
        · intro h; exact absurd h (by decide)
        · rintro ⟨_, h⟩; exact absurd h h2

theorem procStepLead_getCol_ne (df : DF) {name : String}
    (h : name ≠ "procurement_lead_time_days") :
    (procStepLead df).getCol name = df.getCol name := by
  unfold procStepLead
  split
  · exact getCol_setCol_ne df (Ne.symm h) _
  · rfl

theorem procStepGross_getCol_ne (df : DF) {name : String}
    (h : name ≠ "gross_po_value") :
    (procStepGross df).getCol name = df.getCol name := by
  unfold procStepGross
  split
  · exact getCol_setCol_ne df (Ne.symm h) _
  · rfl

theorem procStepNegotiated_getCol_ne (df : DF) {name : String}
    (h : name ≠ "negotiated_po_value") :
    (procStepNegotiated df).getCol name = df.getCol name := by
  unfold procStepNegotiated
  split
  · exact getCol_setCol_ne df (Ne.symm h) _
  · rfl

theorem procStepSavings_getCol_ne (df : DF) {name : String}
    (h1 : name ≠ "realized_savings") (h2 : name ≠ "savings_rate_pct") :
    (procStepSavings df).getCol name = df.getCol name := by
  unfold procStepSavings
  split
  · rw [getCol_setCol_ne _ (Ne.symm h2), getCol_setCol_ne _ (Ne.symm h1)]
  · rfl

theorem procStepDefectRate_getCol_ne (df : DF) {name : String}
    (h : name ≠ "defect_rate_pct") :
    (procStepDefectRate df).getCol name = df.getCol name := by
  unfold procStepDefectRate
  split
  · exact getCol_setCol_ne df (Ne.symm h) _
  · rfl

theorem procStepDefectCost_getCol_ne (df : DF) {name : String}
    (h : name ≠ "defective_cost_exposure") :
    (procStepDefectCost df).getCol name = df.getCol name := by
  unfold procStepDefectCost
  split
  · exact getCol_setCol_ne df (Ne.symm h) _
  · rfl

theorem procStepCompliance_getCol_ne (df : DF) {name : String}
    (h : name ≠ "non_compliant_flag") :
    (procStepCompliance df).getCol name = df.getCol name := by
  unfold procStepCompliance
  split
  · exact getCol_setCol_ne df (Ne.symm h) _
  · rfl

theorem procStepSpendAtRisk_getCol_ne (df : DF) {name : String}
    (h : name ≠ "spend_at_risk") :
    (procStepSpendAtRisk df).getCol name = df.getCol name := by
  unfold procStepSpendAtRisk
  split
  · exact getCol_setCol_ne df (Ne.symm h) _
  · rfl

theorem statusRisk_eq (s : String) :
    statusRisk s =
      if s.trim.toLower = "delivered" then 0
      else if s.trim.toLower = "pending" then 1/2
      else if s.trim.toLower = "partially delivered" then 7/10
      else if s.trim.toLower = "cancelled" then 1
      else 1/5 := by
  unfold statusRisk order_status_mapping
  set t := s.trim.toLower with ht
  by_cases h1 : t = "delivered"
  · have hb : (t == "delivered") = true := beq_iff_eq.mpr h1
    simp [List.lookup, hb, h1]
  · have hb1 : (t == "delivered") = false := beq_eq_false_iff_ne.mpr h1
    by_cases h2 : t = "pending"
    · have hb : (t == "pending") = true := beq_iff_eq.mpr h2
      simp [List.lookup, hb1, hb, h1, h2]
    · have hb2 : (t == "pending") = false := beq_eq_false_iff_ne.mpr h2
      by_cases h3 : t = "partially delivered"
      · have hb : (t == "partially delivered") = true := beq_iff_eq.mpr h3
        simp [List.lookup, hb1, hb2, hb, h1, h2, h3]
      · have hb3 : (t == "partially delivered") = false :=
          beq_eq_false_iff_ne.mpr h3
        by_cases h4 : t = "cancelled"
        · have hb : (t == "cancelled") = true := beq_iff_eq.mpr h4
          simp [List.lookup, hb1, hb2, hb3, hb, h1, h2, h3, h4]
        · have hb4 : (t == "cancelled") = false := beq_eq_false_iff_ne.mpr h4
          simp [List.lookup, hb1, hb2, hb3, hb4, h1, h2, h3, h4]

theorem hasCol_true_of_getCol_some (df : DF) (name : String) (c : List Cell)
    (h : df.getCol name = some c) : df.hasCol name = true :=
  (hasCol_iff_getCol_isSome df name).mpr (by simp [h])

theorem hasCol_false_of_getCol_none (df : DF) (name : String)
    (h : df.getCol name = none) : df.hasCol name = false := by
  cases hb : df.hasCol name
  · rfl
  · exact absurd ((hasCol_iff_getCol_isSome df name).mp hb) (by simp [h])

theorem min?_eq_none_iff_nil (l : List ℤ) : l.min? = none ↔ l = [] := by
  cases l <;> simp [List.min?]

theorem max?_eq_none_iff_nil (l : List ℤ) : l.max? = none ↔ l = [] := by
  cases l <;> simp [List.max?]

theorem dedup_ne_nil_of_ne_nil {l : List Cell} (h : l ≠ []) :
    l.dedup ≠ [] := by
  cases l with
  | nil => exact absurd rfl h
  | cons a rest =>
    intro hc
    have : a ∈ (a :: rest).dedup := List.mem_dedup.mpr (List.mem_cons_self a rest)
    rw [hc] at this
    simp at this

theorem topGroupKey_eq_none_iff (ks vs : List Cell) :
    topGroupKey ks vs = none ↔ ks = [] := by
  unfold topGroupKey
  rw [Option.map_eq_none', List.head?_eq_none_iff]
  constructor
  · intro h
    have hlen := (List.perm_insertionSort
      (fun a b : Cell × ℚ => b.2 ≤ a.2) (groupSums ks vs)).length_eq
    rw [h] at hlen
    have hnil : groupSums ks vs = [] := List.length_eq_zero.mp hlen.symm
    have hded : ks.dedup = [] := by
      unfold groupSums at hnil
      exact List.map_eq_nil.mp hnil
    by_contra hne
    exact dedup_ne_nil_of_ne_nil hne hded
  · intro h
    subst h
    rfl

theorem mem_kpiSupplier (df : DF) (k : String) :
    k ∈ (kpiSupplier df).map Prod.fst
      ↔ (k = "supplier_count" ∧ df.hasCol "supplier" = true) := by
  cases h : df.getCol "supplier" with
  | none => simp [kpiSupplier, h, hasCol_false_of_getCol_none df _ h]
  | some c => simp [kpiSupplier, h, hasCol_true_of_getCol_some df _ c h]

theorem mem_kpiGross (df : DF) (k : String) :
    k ∈ (kpiGross df).map Prod.fst
      ↔ (k = "total_gross_po_value" ∧ df.hasCol "gross_po_value" = true) := by
  cases h : df.getCol "gross_po_value" with
  | none => simp [kpiGross, h, hasCol_false_of_getCol_none df _ h]
  | some c => simp [kpiGross, h, hasCol_true_of_getCol_some df _ c h]

theorem mem_kpiNegotiated (df : DF) (k : String) :
    k ∈ (kpiNegotiated df).map Prod.fst
      ↔ (k = "total_negotiated_po_value"
          ∧ df.hasCol "negotiated_po_value" = true) := by
  cases h : df.getCol "negotiated_po_value" with
  | none => simp [kpiNegotiated, h, hasCol_false_of_getCol_none df _ h]
  | some c => simp [kpiNegotiated, h, hasCol_true_of_getCol_some df _ c h]

theorem mem_kpiRealized (df : DF) (k : String) :
    k ∈ (kpiRealized df).map Prod.fst
      ↔ ((k = "total_realized_savings" ∨ k = "avg_savings_rate_pct")
          ∧ df.hasCol "realized_savings" = true) := by
  cases h : df.getCol "realized_savings" with
  | none => simp [kpiRealized, h, hasCol_false_of_getCol_none df _ h]
  | some c =>
    cases h2 : df.getCol "savings_rate_pct" with
    | none => simp [kpiRealized, h, h2, hasCol_true_of_getCol_some df _ c h]
    | some c2 => simp [kpiRealized, h, h2, hasCol_true_of_getCol_some df _ c h]

theorem mem_kpiDefectCost (df : DF) (k : String) :
    k ∈ (kpiDefectCost df).map Prod.fst
      ↔ (k = "total_defective_cost_exposure"
          ∧ df.hasCol "defective_cost_exposure" = true) := by
  cases h : df.getCol "defective_cost_exposure" with
  | none => simp [kpiDefectCost, h, hasCol_false_of_getCol_none df _ h]
  | some c => simp [kpiDefectCost, h, hasCol_true_of_getCol_some df _ c h]

theorem mem_kpiDefectRate (df : DF) (k : String) :
    k ∈ (kpiDefectRate df).map Prod.fst
      ↔ (k = "avg_defect_rate_pct" ∧ df.hasCol "defect_rate_pct" = true) := by
  cases h : df.getCol "defect_rate_pct" with
  | none => simp [kpiDefectRate, h, hasCol_false_of_getCol_none df _ h]
  | some c => simp [kpiDefectRate, h, hasCol_true_of_getCol_some df _ c h]

theorem mem_kpiLead (df : DF) (k : String) :
    k ∈ (kpiLead df).map Prod.fst
      ↔ ((k = "avg_lead_time_days" ∨ k = "late_delivery_threshold_days"
            ∨ k = "late_delivery_rate")
          ∧ df.hasCol "procurement_lead_time_days" = true) := by
  cases h : df.getCol "procurement_lead_time_days" with
  | none => simp [kpiLead, h, hasCol_false_of_getCol_none df _ h]
  | some c => simp [kpiLead, h, hasCol_true_of_getCol_some df _ c h]

theorem mem_kpiCompliance (df : DF) (k : String) :
    k ∈ (kpiCompliance df).map Prod.fst
      ↔ (k = "non_compliance_rate" ∧ df.hasCol "non_compliant_flag" = true) := by
  cases h : df.getCol "non_compliant_flag" with
  | none => simp [kpiCompliance, h, hasCol_false_of_getCol_none df _ h]
  | some c => simp [kpiCompliance, h, hasCol_true_of_getCol_some df _ c h]

theorem mem_kpiSpendAtRisk (df : DF) (k : String) :
    k ∈ (kpiSpendAtRisk df).map Prod.fst
      ↔ (k = "total_spend_at_risk" ∧ df.hasCol "spend_at_risk" = true) := by
  cases h : df.getCol "spend_at_risk" with
  | none => simp [kpiSpendAtRisk, h, hasCol_false_of_getCol_none df _ h]
  | some c => simp [kpiSpendAtRisk, h, hasCol_true_of_getCol_some df _ c h]

theorem mem_kpiOrderDates (df : DF) (k : String) :
    k ∈ (kpiOrderDates df).map Prod.fst
      ↔ ((k = "order_date_min" ∨ k = "order_date_max")
          ∧ ∃ c, df.getCol "order_date" = some c
            ∧ (dateMin c).isSome = true) := by
  cases h : df.getCol "order_date" with
  | none => simp [kpiOrderDates, h]
  | some c =>
    cases hmn : dateMin c with
    | none => simp [kpiOrderDates, h, hmn]
    | some mn =>
      cases hmx : dateMax c with
      | none =>
        exfalso
        have hnil : c.filterMap toDatetime = [] :=
          (max?_eq_none_iff_nil _).mp hmx
        have : dateMin c = none := by
          unfold dateMin
          rw [hnil]
          rfl
        rw [this] at hmn
        exact Option.noConfusion hmn
      | some mx => simp [kpiOrderDates, h, hmn, hmx]

theorem mem_kpiDeliveryDates (df : DF) (k : String) :
    k ∈ (kpiDeliveryDates df).map Prod.fst
      ↔ ((k = "missing_delivery_rate" ∧ df.hasCol "delivery_date" = true)
        ∨ ((k = "delivery_date_min" ∨ k = "delivery_date_max")
            ∧ ∃ c, df.getCol "delivery_date" = some c
              ∧ (dateMin c).isSome = true)) := by
  cases h : df.getCol "delivery_date" with
  | none => simp [kpiDeliveryDates, h, hasCol_false_of_getCol_none df _ h]
  | some c =>
    cases hmn : dateMin c with
    | none =>
      simp [kpiDeliveryDates, h, hmn, hasCol_true_of_getCol_some df _ c h]
    | some mn =>
      cases hmx : dateMax c with
      | none =>
        exfalso
        have hnil : c.filterMap toDatetime = [] :=
          (max?_eq_none_iff_nil _).mp hmx
        have : dateMin c = none := by
          unfold dateMin
          rw [hnil]
          rfl
        rw [this] at hmn
        exact Option.noConfusion hmn
      | some mx =>
        simp [kpiDeliveryDates, h, hmn, hmx,
          hasCol_true_of_getCol_some df _ c h]

theorem mem_kpiTopSupplier (df : DF) (k : String) :
    k ∈ (kpiTopSupplier df).map Prod.fst
      ↔ (k = "top_savings_supplier"
          ∧ ∃ ks vs, df.getCol "supplier" = some ks
            ∧ df.getCol "realized_savings" = some vs ∧ ks ≠ []) := by
  cases h1 : df.getCol "supplier" with
  | none => simp [kpiTopSupplier, h1]
  | some ks =>
    cases h2 : df.getCol "realized_savings" with
    | none => simp [kpiTopSupplier, h1, h2]
    | some vs =>
      cases h3 : topGroupKey ks vs with
      | none =>
        have hks : ks = [] := (topGroupKey_eq_none_iff ks vs).mp h3
        have h3b : topGroupKey [] vs = none := hks ▸ h3
        simp [kpiTopSupplier, h1, h2, h3b, hks]
      | some key =>
        have hne : ks ≠ [] := by
          intro hc
          rw [(topGroupKey_eq_none_iff ks vs).mpr hc] at h3
          exact Option.noConfusion h3
        simp [kpiTopSupplier, h1, h2, h3, hne]

theorem mem_kpiTopCategory (df : DF) (k : String) :
    k ∈ (kpiTopCategory df).map Prod.fst
      ↔ (k = "top_savings_category"
          ∧ ∃ ks vs, df.getCol "item_category" = some ks
            ∧ df.getCol "realized_savings" = some vs ∧ ks ≠ []) := by
  cases h1 : df.getCol "item_category" with
  | none => simp [kpiTopCategory, h1]
  | some ks =>
    cases h2 : df.getCol "realized_savings" with
    | none => simp [kpiTopCategory, h1, h2]
    | some vs =>
      cases h3 : topGroupKey ks vs with
      | none =>
        have hks : ks = [] := (topGroupKey_eq_none_iff ks vs).mp h3
        have h3b : topGroupKey [] vs = none := hks ▸ h3
        simp [kpiTopCategory, h1, h2, h3b, hks]
      | some key =>
        have hne : ks ≠ [] := by
          intro hc
          rw [(topGroupKey_eq_none_iff ks vs).mpr hc] at h3
          exact Option.noConfusion h3
        simp [kpiTopCategory, h1, h2, h3, hne]

theorem lookup_append_right (l1 l2 : List (String × KpiVal)) (k : String)
    (h : ∀ p ∈ l1, p.1 ≠ k) : (l1 ++ l2).lookup k = l2.lookup k := by
  induction l1 with
  | nil => rfl
  | cons q rest ih =>
    have hq : (k == q.1) = false :=
      beq_eq_false_iff_ne.mpr (fun hc => h q (List.mem_cons_self q rest) hc.symm)
    simp only [List.cons_append, List.lookup, hq]
    exact ih (fun p hp => h p (List.mem_cons_of_mem q hp))

theorem set_concat_length (h : Heap) (df x : DF) :
    (h ++ [df]).set h.length x = h ++ [x] := by
  induction h with
  | nil => rfl
  | cons a rest ih =>
    simp only [List.cons_append, List.length_cons, List.set, List.append_eq]
    rw [ih]

theorem heap_update_facts (h : Heap) (r i : ℕ) (hr : r < h.length)
    (hi : i < h.length) (f : DF → DF) :
    (((h ++ [(h.get? r).getD default]).set h.length
        (f ((h.get? r).getD default))).get? i = h.get? i)
    ∧ h.length ≠ r
    ∧ (((h ++ [(h.get? r).getD default]).set h.length
        (f ((h.get? r).getD default))).get? h.length
          = some (f ((h.get? r).getD default))) := by
  rw [set_concat_length]
  exact ⟨List.get?_append hi, by omega, List.get?_concat_length _ _⟩

/-- C1: on a non-empty dataframe with the value column whose per-id sums
have a non-zero total, compute_abc returns one row per distinct
inventory_id, sorted by descending annual_value (the per-id sum), with
cum_pct the running cumulative share of the total and abc_class cut at
0.8 and 0.95. -/
theorem compute_abc_spec (df : DF) (value_col : String)
    (ids vals : List Cell)
    (hids : df.getCol "inventory_id" = some ids)
    (hvals : df.getCol value_col = some vals)
    (hne : df.isEmpty = false)
    (htot : ((groupSums ids vals).map Prod.snd).sum ≠ 0) :
    ∃ out, compute_abc df value_col = some out
      ∧ (out.map AbcRow.inventory_id).Nodup
      ∧ (∀ k, k ∈ out.map AbcRow.inventory_id ↔ k ∈ ids)
      ∧ out.length = ids.dedup.length
      ∧ List.Sorted (fun a b : ℚ => b ≤ a) (out.map AbcRow.annual_value)
      ∧ (∀ r ∈ out, r.annual_value = groupSum ids vals r.inventory_id)
      ∧ (∀ i, ∀ hi : i < out.length, (out.get ⟨i, hi⟩).cum_pct
          = ((out.map AbcRow.annual_value).take (i + 1)).sum
              / ((groupSums ids vals).map Prod.snd).sum)
      ∧ (∀ r ∈ out,
          (r.abc_class = "A" ↔ r.cum_pct ≤ 4/5)
          ∧ (r.abc_class = "B" ↔ 4/5 < r.cum_pct ∧ r.cum_pct ≤ 19/20)
          ∧ (r.abc_class = "C" ↔ 19/20 < r.cum_pct)) := by
  have hhas : df.hasCol value_col = true :=
    (hasCol_iff_getCol_isSome df value_col).mpr (by simp [hvals])
  haveI : IsTotal (Cell × ℚ) (fun a b : Cell × ℚ => b.2 ≤ a.2) :=
    ⟨fun a b => le_total b.2 a.2⟩
  haveI : IsTrans (Cell × ℚ) (fun a b : Cell × ℚ => b.2 ≤ a.2) :=
    ⟨fun _ _ _ h1 h2 => le_trans h2 h1⟩
  set sorted :=
    (groupSums ids vals).insertionSort (fun a b : Cell × ℚ => b.2 ≤ a.2)
    with hsorted
  have hperm : List.Perm sorted (groupSums ids vals) :=
    List.perm_insertionSort _ _
  have hfst : (groupSums ids vals).map Prod.fst = ids.dedup := by
    rw [groupSums, List.map_map]
    show ids.dedup.map id = ids.dedup
    exact List.map_id _
  have htote : (sorted.map Prod.snd).sum
      = ((groupSums ids vals).map Prod.snd).sum :=
    (hperm.map Prod.snd).sum_eq
  have htotne : (sorted.map Prod.snd).sum ≠ 0 := by rw [htote]; exact htot
  set total := (sorted.map Prod.snd).sum with htotal
  refine ⟨abcRows total 0 sorted, ?_, ?_, ?_, ?_, ?_, ?_, ?_, ?_⟩
  · unfold compute_abc
    rw [hne, hhas]
    simp only [Bool.not_true, Bool.or_false, Bool.false_eq_true, if_false]
    rw [hids, hvals]
    dsimp only
    rw [← hsorted, ← htotal, if_neg htotne]
  · rw [abcRows_map_id]
    exact ((hperm.map Prod.fst).nodup_iff).mpr (hfst ▸ ids.nodup_dedup)
  · intro k
    rw [abcRows_map_id]
    rw [(hperm.map Prod.fst).mem_iff]
    rw [hfst, List.mem_dedup]
  · rw [abcRows_length]
    have := hperm.length_eq
    simp only [groupSums, List.length_map] at this ⊢
    exact this
  · rw [abcRows_map_val]
    have hs : List.Sorted (fun a b : Cell × ℚ => b.2 ≤ a.2) sorted :=
      List.sorted_insertionSort _ _
    exact List.Pairwise.map Prod.snd (fun a b hab => hab) hs
  · intro row hrow
    obtain ⟨hmem, _⟩ := abcRows_mem total 0 sorted row hrow
    have hmem2 : (row.inventory_id, row.annual_value) ∈ groupSums ids vals :=
      hperm.mem_iff.mp hmem
    simp only [groupSums, List.mem_map] at hmem2
    obtain ⟨k, _, hk⟩ := hmem2
    have h1 : k = row.inventory_id := congrArg Prod.fst hk
    have h2 : groupSum ids vals k = row.annual_value := congrArg Prod.snd hk
    rw [← h2, h1]
  · intro i hi
    have := abcRows_cum_pct total sorted 0 i hi
    rw [this, abcRows_map_val, zero_add, htote]
  · intro row hrow
    obtain ⟨_, hcls⟩ := abcRows_mem total 0 sorted row hrow
    rw [hcls]
    exact abcClassOf_cases row.cum_pct

theorem compute_abc_spec_witness :
    ∃ out, compute_abc dfC1 "sales_dollars" = some out
      ∧ (out.map AbcRow.inventory_id).Nodup
      ∧ (∀ k, k ∈ out.map AbcRow.inventory_id
          ↔ k ∈ [Cell.str "a", Cell.str "b", Cell.str "a"])
      ∧ out.length = [Cell.str "a", Cell.str "b", Cell.str "a"].dedup.length
      ∧ List.Sorted (fun a b : ℚ => b ≤ a) (out.map AbcRow.annual_value)
      ∧ (∀ r ∈ out, r.annual_value
          = groupSum [Cell.str "a", Cell.str "b", Cell.str "a"]
              [Cell.num 5, Cell.num 3, Cell.num 1] r.inventory_id)
      ∧ (∀ i, ∀ hi : i < out.length, (out.get ⟨i, hi⟩).cum_pct
          = ((out.map AbcRow.annual_value).take (i + 1)).sum
              / ((groupSums [Cell.str "a", Cell.str "b", Cell.str "a"]
                  [Cell.num 5, Cell.num 3, Cell.num 1]).map Prod.snd).sum)
      ∧ (∀ r ∈ out,
          (r.abc_class = "A" ↔ r.cum_pct ≤ 4/5)
          ∧ (r.abc_class = "B" ↔ 4/5 < r.cum_pct ∧ r.cum_pct ≤ 19/20)
          ∧ (r.abc_class = "C" ↔ 19/20 < r.cum_pct)) :=
  compute_abc_spec dfC1 "sales_dollars"
    [Cell.str "a", Cell.str "b", Cell.str "a"]
    [Cell.num 5, Cell.num 3, Cell.num 1] rfl rfl rfl
    (by simp +decide [groupSums, groupSum, cnum, List.dedup, List.pwFilter]
        norm_num)

/-- C2: compute_eoq is elementwise sqrt((2*demand*order_cost)/holding) at
every position whose holding cost is not the number 0, and NaN where the
holding cost is 0. -/
theorem compute_eoq_formula (demand : List (Option ℝ)) (order_cost : ℝ)
    (holding_cost : List (Option ℝ))
    (hlen : demand.length = holding_cost.length) :
    (compute_eoq demand order_cost holding_cost).length = demand.length
    ∧ ∀ i d h, demand.get? i = some d → holding_cost.get? i = some h →
        (h = some 0 →
          (compute_eoq demand order_cost holding_cost).get? i = some none)
        ∧ (h ≠ some 0 →
          (compute_eoq demand order_cost holding_cost).get? i
            = some (sqrtR (divR (mulR (mulR (some 2) d) (some order_cost)) h))) := by
  constructor
  · simp [compute_eoq, hlen]
  · intro i d h hd hh
    have hbase : (compute_eoq demand order_cost holding_cost).get? i
        = some (sqrtR (divR (mulR (mulR (some 2) d) (some order_cost))
            (replaceZeroNaN h))) := by
      rw [compute_eoq]
      rw [List.get?_zipWith', List.get?_map, List.get?_map, hd, hh]
      rfl
    constructor
    · rintro rfl
      rw [hbase]
      simp [replaceZeroNaN, divR, sqrtR, mulR]
    · intro hne
      rw [hbase]
      congr 2
      cases h with
      | none => rfl
      | some a =>
        have ha : a ≠ 0 := fun hc => hne (by rw [hc])
        simp [replaceZeroNaN, ha]

/-- Concrete instantiation for the witness of claim C2. -/
theorem compute_eoq_formula_witness :
    (compute_eoq [some 2, some 8] (3 : ℝ) [some 0, some 5]).get? 0 = some none
    ∧ (compute_eoq [some 2, some 8] (3 : ℝ) [some 0, some 5]).get? 1
        = some (sqrtR (divR (mulR (mulR (some 2) (some 8)) (some 3)) (some 5))) := by
  have h := compute_eoq_formula [some 2, some 8] 3 [some 0, some 5] rfl
  exact ⟨(h.2 0 (some 2) (some 0) rfl rfl).1 rfl,
    (h.2 1 (some 8) (some 5) rfl rfl).2 (by simp)⟩

/-- C3 counterexample: on an empty frame that has both the supplier and
realized_savings columns, the key top_savings_supplier is absent although
every column it is derived from is present; likewise a frame with
realized_savings but no savings_rate_pct column still gets the
avg_savings_rate_pct key.  So presence of the optional keys is not
equivalent to presence of their source columns. -/
theorem compute_kpis_presence_counterexample :
    ((⟨[("supplier", []), ("realized_savings", [])]⟩ : DF).hasCol "supplier"
        = true
      ∧ (⟨[("supplier", []), ("realized_savings", [])]⟩ : DF).hasCol
          "realized_savings" = true
      ∧ "top_savings_supplier" ∉
          (compute_kpis ⟨[("supplier", []), ("realized_savings", [])]⟩).map
            Prod.fst)
    ∧ ((⟨[("realized_savings", [Cell.num 1])]⟩ : DF).hasCol
          "savings_rate_pct" = false
      ∧ "avg_savings_rate_pct" ∈
          (compute_kpis ⟨[("realized_savings", [Cell.num 1])]⟩).map
            Prod.fst) := by
  refine ⟨⟨rfl, rfl, ?_⟩, rfl, ?_⟩
  · decide
  · decide

/-- C3 (amended): compute_kpis is total, always reports total_orders as
the number of rows, and each fixed-condition optional key is present
exactly when its source column is present; the date min/max keys further
require a parseable date, the top_savings keys a non-empty frame, and
avg_savings_rate_pct is keyed on realized_savings alone. -/
theorem compute_kpis_presence (df : DF) :
    (compute_kpis df).lookup "total_orders" = some (KpiVal.int (df.nRows : ℤ))
    ∧ ("supplier_count" ∈ (compute_kpis df).map Prod.fst
        ↔ df.hasCol "supplier" = true)
    ∧ ("total_gross_po_value" ∈ (compute_kpis df).map Prod.fst
        ↔ df.hasCol "gross_po_value" = true)
    ∧ ("total_negotiated_po_value" ∈ (compute_kpis df).map Prod.fst
        ↔ df.hasCol "negotiated_po_value" = true)
    ∧ ("total_realized_savings" ∈ (compute_kpis df).map Prod.fst
        ↔ df.hasCol "realized_savings" = true)
    ∧ ("avg_savings_rate_pct" ∈ (compute_kpis df).map Prod.fst
        ↔ df.hasCol "realized_savings" = true)
    ∧ ("total_defective_cost_exposure" ∈ (compute_kpis df).map Prod.fst
        ↔ df.hasCol "defective_cost_exposure" = true)
    ∧ ("avg_defect_rate_pct" ∈ (compute_kpis df).map Prod.fst
        ↔ df.hasCol "defect_rate_pct" = true)
    ∧ ("avg_lead_time_days" ∈ (compute_kpis df).map Prod.fst
        ↔ df.hasCol "procurement_lead_time_days" = true)
    ∧ ("late_delivery_threshold_days" ∈ (compute_kpis df).map Prod.fst
        ↔ df.hasCol "procurement_lead_time_days" = true)
    ∧ ("late_delivery_rate" ∈ (compute_kpis df).map Prod.fst
        ↔ df.hasCol "procurement_lead_time_days" = true)
    ∧ ("non_compliance_rate" ∈ (compute_kpis df).map Prod.fst
        ↔ df.hasCol "non_compliant_flag" = true)
    ∧ ("total_spend_at_risk" ∈ (compute_kpis df).map Prod.fst
        ↔ df.hasCol "spend_at_risk" = true)
    ∧ ("total_orders" ∈ (compute_kpis df).map Prod.fst)
    ∧ ("order_date_min" ∈ (compute_kpis df).map Prod.fst
        ↔ ∃ c, df.getCol "order_date" = some c ∧ (dateMin c).isSome = true)
    ∧ ("order_date_max" ∈ (compute_kpis df).map Prod.fst
        ↔ ∃ c, df.getCol "order_date" = some c ∧ (dateMin c).isSome = true)
    ∧ ("missing_delivery_rate" ∈ (compute_kpis df).map Prod.fst
        ↔ df.hasCol "delivery_date" = true)
    ∧ ("delivery_date_min" ∈ (compute_kpis df).map Prod.fst
        ↔ ∃ c, df.getCol "delivery_date" = some c ∧ (dateMin c).isSome = true)
    ∧ ("delivery_date_max" ∈ (compute_kpis df).map Prod.fst
        ↔ ∃ c, df.getCol "delivery_date" = some c ∧ (dateMin c).isSome = true)
    ∧ ("top_savings_supplier" ∈ (compute_kpis df).map Prod.fst
        ↔ ∃ ks vs, df.getCol "supplier" = some ks
            ∧ df.getCol "realized_savings" = some vs ∧ ks ≠ [])
    ∧ ("top_savings_category" ∈ (compute_kpis df).map Prod.fst
        ↔ ∃ ks vs, df.getCol "item_category" = some ks
            ∧ df.getCol "realized_savings" = some vs ∧ ks ≠ []) := by
  refine ⟨?_, ?_, ?_, ?_, ?_, ?_, ?_, ?_, ?_, ?_, ?_, ?_, ?_, ?_, ?_, ?_,
    ?_, ?_, ?_, ?_, ?_⟩
  case refine_1 =>
    have s1 : ∀ p ∈ kpiSupplier df, p.1 ≠ "total_orders" := by
      intro p hp hc
      have hm := List.mem_map_of_mem Prod.fst hp
      rw [hc, mem_kpiSupplier] at hm
      exact absurd hm.1 (by decide)
    have s2 : ∀ p ∈ kpiGross df, p.1 ≠ "total_orders" := by
      intro p hp hc
      have hm := List.mem_map_of_mem Prod.fst hp
      rw [hc, mem_kpiGross] at hm
      exact absurd hm.1 (by decide)
    have s3 : ∀ p ∈ kpiNegotiated df, p.1 ≠ "total_orders" := by
      intro p hp hc
      have hm := List.mem_map_of_mem Prod.fst hp
      rw [hc, mem_kpiNegotiated] at hm
      exact absurd hm.1 (by decide)
    have s4 : ∀ p ∈ kpiRealized df, p.1 ≠ "total_orders" := by
      intro p hp hc
      have hm := List.mem_map_of_mem Prod.fst hp
      rw [hc, mem_kpiRealized] at hm
      exact absurd hm.1 (by decide)
    have s5 : ∀ p ∈ kpiDefectCost df, p.1 ≠ "total_orders" := by
      intro p hp hc
      have hm := List.mem_map_of_mem Prod.fst hp
      rw [hc, mem_kpiDefectCost] at hm
      exact absurd hm.1 (by decide)
    have s6 : ∀ p ∈ kpiDefectRate df, p.1 ≠ "total_orders" := by
      intro p hp hc
      have hm := List.mem_map_of_mem Prod.fst hp
      rw [hc, mem_kpiDefectRate] at hm
      exact absurd hm.1 (by decide)
    have s7 : ∀ p ∈ kpiLead df, p.1 ≠ "total_orders" := by
      intro p hp hc
      have hm := List.mem_map_of_mem Prod.fst hp
      rw [hc, mem_kpiLead] at hm
      exact absurd hm.1 (by decide)
    have s8 : ∀ p ∈ kpiCompliance df, p.1 ≠ "total_orders" := by
      intro p hp hc
      have hm := List.mem_map_of_mem Prod.fst hp
      rw [hc, mem_kpiCompliance] at hm
      exact absurd hm.1 (by decide)
    have s9 : ∀ p ∈ kpiSpendAtRisk df, p.1 ≠ "total_orders" := by
      intro p hp hc
      have hm := List.mem_map_of_mem Prod.fst hp
      rw [hc, mem_kpiSpendAtRisk] at hm
      exact absurd hm.1 (by decide)
    rw [compute_kpis]
    simp only [List.append_assoc]
    rw [lookup_append_right _ _ _ s1,
      lookup_append_right _ _ _ s2, lookup_append_right _ _ _ s3,
      lookup_append_right _ _ _ s4, lookup_append_right _ _ _ s5,
      lookup_append_right _ _ _ s6, lookup_append_right _ _ _ s7,
      lookup_append_right _ _ _ s8, lookup_append_right _ _ _ s9]
    simp [kpiTotalOrders, List.lookup]
  all_goals
    simp only [compute_kpis, List.map_append, List.mem_append,
      mem_kpiSupplier, mem_kpiGross, mem_kpiNegotiated, mem_kpiRealized,
      mem_kpiDefectCost, mem_kpiDefectRate, mem_kpiLead, mem_kpiCompliance,
      mem_kpiSpendAtRisk, mem_kpiOrderDates, mem_kpiDeliveryDates,
      mem_kpiTopSupplier, mem_kpiTopCategory, kpiTotalOrders]
  all_goals simp +decide

/-- C4: with an order_status column present, add_features adds an
order_status_risk column scoring each trimmed, lowercased status string as
delivered 0, pending 0.5, partially delivered 0.7, cancelled 1.0, and 0.2
otherwise; the score always lies in [0, 1]. -/
theorem proc_add_features_order_status_risk (df : DF) (cells : List Cell)
    (h : df.getCol "order_status" = some cells) :
    (proc_add_features df).getCol "order_status_risk"
      = some (cells.map statusRiskCell)
    ∧ (∀ c, statusRiskCell c = Cell.num (statusRisk (cellStr c)))
    ∧ (∀ s, (s.trim.toLower = "delivered" → statusRisk s = 0)
        ∧ (s.trim.toLower = "pending" → statusRisk s = 1/2)
        ∧ (s.trim.toLower = "partially delivered" → statusRisk s = 7/10)
        ∧ (s.trim.toLower = "cancelled" → statusRisk s = 1)
        ∧ (s.trim.toLower ∉
              ["delivered", "pending", "partially delivered", "cancelled"] →
            statusRisk s = 1/5))
    ∧ (∀ s, 0 ≤ statusRisk s ∧ statusRisk s ≤ 1) := by
  refine ⟨?_, fun c => rfl, ?_, ?_⟩
  · have h8 : (procStepSpendAtRisk (procStepCompliance (procStepDefectCost
        (procStepDefectRate (procStepSavings (procStepNegotiated
          (procStepGross (procStepLead df)))))))).getCol "order_status"
        = some cells := by
      rw [procStepSpendAtRisk_getCol_ne _ (by decide),
        procStepCompliance_getCol_ne _ (by decide),
        procStepDefectCost_getCol_ne _ (by decide),
        procStepDefectRate_getCol_ne _ (by decide),
        procStepSavings_getCol_ne _ (by decide) (by decide),
        procStepNegotiated_getCol_ne _ (by decide),
        procStepGross_getCol_ne _ (by decide),
        procStepLead_getCol_ne _ (by decide)]
      exact h
    unfold proc_add_features procStepStatusRisk
    rw [if_pos ((hasCol_iff_getCol_isSome _ "order_status").mpr (by simp [h8]))]
    rw [getCol_setCol_self]
    rw [col, h8]
    rfl
  · intro s
    rw [statusRisk_eq]
    refine ⟨fun h1 => by simp [h1], ?_, ?_, ?_, ?_⟩
    · intro h2
      rw [if_neg (by rw [h2]; decide), if_pos h2]
    · intro h3
      rw [if_neg (by rw [h3]; decide), if_neg (by rw [h3]; decide), if_pos h3]
    · intro h4
      rw [if_neg (by rw [h4]; decide), if_neg (by rw [h4]; decide),
        if_neg (by rw [h4]; decide), if_pos h4]
    · intro hno
      simp only [List.mem_cons, List.not_mem_nil, or_false, not_or] at hno
      rw [if_neg hno.1, if_neg hno.2.1, if_neg hno.2.2.1, if_neg hno.2.2.2]
  · intro s
    rw [statusRisk_eq]
    split_ifs <;> norm_num

theorem proc_add_features_order_status_risk_witness :
    (proc_add_features dfC4).getCol "order_status_risk"
      = some ([Cell.str " Delivered ", Cell.str "CANCELLED",
          Cell.str "??", Cell.null].map statusRiskCell) :=
  (proc_add_features_order_status_risk dfC4
    [Cell.str " Delivered ", Cell.str "CANCELLED", Cell.str "??", Cell.null]
    rfl).1

/-- C5: for non-NaN bounds min ≤ max, build_dim_date has exactly one row
per calendar day from min to max inclusive, with date_key the yyyymmdd
integer of the day, day_of_week the ISO weekday in 1..7 and is_weekend 1
exactly on weekdays 6 and 7; a NaN bound yields the empty frame with the
fixed eleven-column schema. -/
theorem build_dim_date_spec (min_date max_date : Option ℤ) :
    ((min_date = none ∨ max_date = none) →
      build_dim_date min_date max_date
        = ⟨["date_key", "date", "year", "quarter", "month", "month_name",
            "day", "day_of_week", "day_name", "week_of_year", "is_weekend"],
           []⟩)
    ∧ (∀ a b, min_date = some a → max_date = some b → a ≤ b →
        (build_dim_date min_date max_date).rows.length = (b - a + 1).toNat
        ∧ ∀ i, i < (b - a + 1).toNat →
            ∃ r, (build_dim_date min_date max_date).rows[i]? = some r
            ∧ r.date = a + i
            ∧ r.date_key = (civilFromDays (a + i)).1 * 10000
                + (civilFromDays (a + i)).2.1 * 100 + (civilFromDays (a + i)).2.2
            ∧ r.day_of_week = weekday0 (a + i) + 1
            ∧ 1 ≤ r.day_of_week ∧ r.day_of_week ≤ 7
            ∧ (r.is_weekend = 1 ↔ r.day_of_week = 6 ∨ r.day_of_week = 7)
            ∧ (r.is_weekend = 0 ∨ r.is_weekend = 1)) := by
  constructor
  · rintro (rfl | rfl)
    · rfl
    · cases min_date <;> rfl
  · rintro a b rfl rfl _
    have hrows : (build_dim_date (some a) (some b)).rows
        = ((List.range (b - a + 1).toNat).map (fun i : ℕ => a + (i : ℤ))).map
            mkDimRow := rfl
    constructor
    · rw [hrows, List.length_map, List.length_map, List.length_range]
    · intro i hi
      have hr : (build_dim_date (some a) (some b)).rows[i]?
          = some (mkDimRow (a + i)) := by
        rw [hrows, List.getElem?_map, List.getElem?_map,
          List.getElem?_range hi]
        rfl
      have hdow : (mkDimRow (a + i)).day_of_week = weekday0 (a + i) + 1 := rfl
      have hwk : (mkDimRow (a + i)).is_weekend
          = if weekday0 (a + i) + 1 = 6 ∨ weekday0 (a + i) + 1 = 7
            then 1 else 0 := by
        show (if weekday0 (a + i) + 1 = 6 ∨ weekday0 (a + i) + 1 = 7
          then (1 : ℤ) else 0) = _
        rfl
      have hdow0 : 0 ≤ weekday0 (a + i) := Int.emod_nonneg _ (by norm_num)
      have hdow7 : weekday0 (a + i) < 7 := Int.emod_lt_of_pos _ (by norm_num)
      refine ⟨mkDimRow (a + i), hr, rfl, rfl, hdow, ?_, ?_, ?_, ?_⟩
      · rw [hdow]; omega
      · rw [hdow]; omega
      · rw [hdow, hwk]
        split_ifs with h
        · simp [h]
        · simp [h]
      · rw [hwk]
        split_ifs <;> simp

/-- Concrete instantiation for the witness of claim C5: the two-day range
1970-01-01 .. 1970-01-02. -/
theorem build_dim_date_spec_witness :
    (build_dim_date (some 0) (some 1)).rows.length = ((1 : ℤ) - 0 + 1).toNat :=
  ((build_dim_date_spec (some 0) (some 1)).2 0 1 rfl rfl (by decide)).1

/-- C6: clean_inventory coerces on_hand and price (when present) to numeric
with unparseable entries as NaN, nulls every originally negative value, and
leaves every other column unchanged; clean_purchases and clean_sales do the
same for their respective column lists. -/
theorem cleaning_functions_clean_listed_columns_only :
    (∀ c q, toNumeric c = some q → 0 ≤ q → cleanCellSpec c = Cell.num q)
    ∧ (∀ c q, toNumeric c = some q → q < 0 → cleanCellSpec c = Cell.null)
    ∧ (∀ c, toNumeric c = none → cleanCellSpec c = Cell.null)
    ∧ (∀ c, (∃ q, cleanCellSpec c = Cell.num q ∧ 0 ≤ q) ∨ cleanCellSpec c = Cell.null)
    ∧ CleansColumns clean_inventory ["on_hand", "price"]
    ∧ CleansColumns clean_purchases ["quantity", "dollars", "purchase_price"]
    ∧ CleansColumns clean_sales ["sales_quantity", "sales_dollars", "sales_price"] := by
  refine ⟨?_, ?_, ?_, ?_, ?_, ?_, ?_⟩
  · intro c q h hq
    unfold cleanCellSpec
    rw [h]
    simp [not_lt.mpr hq]
  · intro c q h hq
    unfold cleanCellSpec
    rw [h]
    simp [hq]
  · intro c h
    unfold cleanCellSpec
    rw [h]
  · intro c
    unfold cleanCellSpec
    cases h : toNumeric c with
    | none => simp
    | some q =>
      by_cases hq : q < 0
      · simp [hq]
      · exact Or.inl ⟨q, by simp [hq], not_lt.mp hq⟩
  · exact cleansColumns_of_nodup _ (by decide)
  · exact cleansColumns_of_nodup _ (by decide)
  · exact cleansColumns_of_nodup _ (by decide)

theorem cleaning_functions_clean_listed_columns_only_witness :
    (clean_inventory dfC6).getCol "on_hand"
      = some ([Cell.num (-3), Cell.str "x", Cell.str "2.5", Cell.null].map cleanCellSpec)
    ∧ (clean_inventory dfC6).getCol "vendor_id" = dfC6.getCol "vendor_id" := by
  constructor
  · exact (cleaning_functions_clean_listed_columns_only.2.2.2.2.1 dfC6 "on_hand").2
      (by decide) _ rfl
  · exact (cleaning_functions_clean_listed_columns_only.2.2.2.2.1 dfC6 "vendor_id").1
      (by decide)

/-- C7: top_n returns at most n rows; with both columns present the rows
are (group, grouped sum) pairs sorted non-increasingly and truncated to the
n largest sums; with either column missing it returns an empty frame whose
columns are exactly [group_col, value_col]. -/
theorem top_n_spec (df : DF) (group_col value_col : String) (n : ℕ) :
    ((¬ df.hasCol group_col = true ∨ ¬ df.hasCol value_col = true) →
      top_n df group_col value_col n = ⟨[(group_col, []), (value_col, [])]⟩)
    ∧ (∀ ids vals, df.getCol group_col = some ids →
        df.getCol value_col = some vals →
        ∃ taken : List (Cell × ℚ),
          top_n df group_col value_col n
            = ⟨[(group_col, taken.map Prod.fst),
                (value_col, taken.map (fun p => Cell.num p.2))]⟩
          ∧ taken.length ≤ n
          ∧ (taken.map Prod.fst).Nodup
          ∧ (∀ p ∈ taken, p.1 ∈ ids.dedup ∧ p.2 = groupSum ids vals p.1)
          ∧ List.Sorted (fun a b : ℚ => b ≤ a) (taken.map Prod.snd)
          ∧ (∀ k ∈ ids.dedup, k ∉ taken.map Prod.fst →
              ∀ p ∈ taken, groupSum ids vals k ≤ p.2)) := by
  constructor
  · intro h
    unfold top_n
    have : (!df.hasCol group_col || !df.hasCol value_col) = true := by
      rcases h with h | h <;> simp [Bool.not_eq_true] at h <;> simp [h]
    rw [if_pos this]
  · intro ids vals hids hvals
    have hg : df.hasCol group_col = true :=
      (hasCol_iff_getCol_isSome df group_col).mpr (by simp [hids])
    have hv : df.hasCol value_col = true :=
      (hasCol_iff_getCol_isSome df value_col).mpr (by simp [hvals])
    haveI : IsTotal (Cell × ℚ) (fun a b : Cell × ℚ => b.2 ≤ a.2) :=
      ⟨fun a b => le_total b.2 a.2⟩
    haveI : IsTrans (Cell × ℚ) (fun a b : Cell × ℚ => b.2 ≤ a.2) :=
      ⟨fun _ _ _ h1 h2 => le_trans h2 h1⟩
    set sorted :=
      (groupSums ids vals).insertionSort (fun a b : Cell × ℚ => b.2 ≤ a.2)
      with hsorted
    have hperm : List.Perm sorted (groupSums ids vals) :=
      List.perm_insertionSort _ _
    have hfst : (groupSums ids vals).map Prod.fst = ids.dedup := by
      rw [groupSums, List.map_map]
      show ids.dedup.map id = ids.dedup
      exact List.map_id _
    have hsort : List.Sorted (fun a b : Cell × ℚ => b.2 ≤ a.2) sorted :=
      List.sorted_insertionSort _ _
    refine ⟨sorted.take n, ?_, List.length_take_le n sorted, ?_, ?_, ?_, ?_⟩
    · unfold top_n
      rw [hg, hv]
      simp only [Bool.not_true, Bool.or_self, Bool.false_eq_true, if_false]
      rw [hids, hvals]
      rfl
    · have hnd : (sorted.map Prod.fst).Nodup :=
        ((hperm.map Prod.fst).nodup_iff).mpr (hfst ▸ ids.nodup_dedup)
      rw [List.map_take]
      exact hnd.sublist (List.take_sublist n _)
    · intro p hp
      have hmem : p ∈ groupSums ids vals :=
        hperm.mem_iff.mp (List.take_subset n sorted hp)
      simp only [groupSums, List.mem_map] at hmem
      obtain ⟨k, hk, hkp⟩ := hmem
      constructor
      · rw [← hkp]; exact hk
      · rw [← hkp]
    · have hs : List.Sorted (fun a b : ℚ => b ≤ a) (sorted.map Prod.snd) :=
        List.Pairwise.map Prod.snd (fun a b hab => hab) hsort
      rw [List.map_take]
      exact hs.sublist (List.take_sublist n _)
    · intro k hk hnot p hp
      have hkin : (k, groupSum ids vals k) ∈ groupSums ids vals := by
        simp only [groupSums, List.mem_map]
        exact ⟨k, hk, rfl⟩
      have hkin2 : (k, groupSum ids vals k) ∈ sorted := hperm.mem_iff.mpr hkin
      rw [← List.take_append_drop n sorted] at hkin2 hsort
      rcases List.mem_append.mp hkin2 with hmem | hmem
      · exact absurd (List.mem_map_of_mem Prod.fst hmem) hnot
      · have := (List.pairwise_append.mp hsort).2.2
        exact this p hp (k, groupSum ids vals k) hmem

/-- Concrete instantiation for the witness of claim C7: a frame missing
both requested columns yields the empty two-column frame. -/
theorem top_n_spec_witness :
    top_n ⟨[("x", [Cell.num 1])]⟩ "g" "v" 10 = ⟨[("g", []), ("v", [])]⟩ :=
  (top_n_spec ⟨[("x", [Cell.num 1])]⟩ "g" "v" 10).1 (Or.inl (by decide))

/-- C8: compute_reorder_point is the elementwise product of the demand rate
and the lead time series. -/
theorem compute_reorder_point_elementwise
    (demand_rate lead_time_days : List (Option ℚ))
    (hlen : demand_rate.length = lead_time_days.length) :
    (compute_reorder_point demand_rate lead_time_days).length
        = demand_rate.length
    ∧ ∀ i x y, demand_rate.get? i = some x → lead_time_days.get? i = some y →
        (compute_reorder_point demand_rate lead_time_days).get? i
          = some (x.bind fun a => y.map fun b => a * b) := by
  constructor
  · simp [compute_reorder_point, hlen]
  · intro i x y hx hy
    rw [compute_reorder_point, List.get?_zipWith', hx, hy]
    rfl

/-- Concrete instantiation for the witness of claim C8. -/
theorem compute_reorder_point_elementwise_witness :
    (compute_reorder_point [some 3, none] [some 4, some 5]).get? 0
      = some (((some 3 : Option ℚ)).bind fun a =>
          ((some 4 : Option ℚ)).map fun b => a * b) :=
  (compute_reorder_point_elementwise [some 3, none] [some 4, some 5]
    rfl).2 0 (some 3) (some 4) rfl rfl

/-- C9 counterexample and divergence record: on columns ["a", "a", "a_2"]
the suffix given to the second "a" collides with the existing column
"a_2", so canonicalize_columns returns duplicate column names, although
its docstring promises unique ones. -/
theorem canonicalize_columns_duplicate_names :
    ((canonicalize_columns ⟨[("a", []), ("a", []), ("a_2", [])]⟩).cols.map
        Prod.fst) = ["a", "a_2", "a_2"]
    ∧ ¬ ((canonicalize_columns ⟨[("a", []), ("a", []), ("a_2", [])]⟩).cols.map
        Prod.fst).Nodup := by
  decide

/-- C10: clean_inventory and the two add_features functions copy their
argument first: run on the heap, they leave every pre-existing object
(the caller's dataframe in particular) untouched, return a fresh
reference, and the fresh object holds the pure transformation of the
argument. -/
theorem cleaning_and_features_do_not_mutate_caller (h : Heap) (r i : ℕ)
    (hr : r < h.length) (hi : i < h.length) :
    ((clean_inventory_heap h r).1.get? i = h.get? i
      ∧ (clean_inventory_heap h r).2 ≠ r
      ∧ (clean_inventory_heap h r).1.get? (clean_inventory_heap h r).2
          = some (clean_inventory ((h.get? r).getD default)))
    ∧ ((proc_add_features_heap h r).1.get? i = h.get? i
      ∧ (proc_add_features_heap h r).2 ≠ r
      ∧ (proc_add_features_heap h r).1.get? (proc_add_features_heap h r).2
          = some (proc_add_features ((h.get? r).getD default)))
    ∧ ((scm_add_features_heap h r).1.get? i = h.get? i
      ∧ (scm_add_features_heap h r).2 ≠ r
      ∧ (scm_add_features_heap h r).1.get? (scm_add_features_heap h r).2
          = some (scm_add_features ((h.get? r).getD default))) :=
  ⟨heap_update_facts h r i hr hi clean_inventory,
   heap_update_facts h r i hr hi proc_add_features,
   heap_update_facts h r i hr hi scm_add_features⟩

theorem cleaning_and_features_do_not_mutate_caller_witness :
    (clean_inventory_heap [dfC10] 0).1.get? 0 = ([dfC10] : Heap).get? 0
    ∧ (proc_add_features_heap [dfC10] 0).1.get? 0 = ([dfC10] : Heap).get? 0
    ∧ (scm_add_features_heap [dfC10] 0).1.get? 0 = ([dfC10] : Heap).get? 0 :=
  let facts := cleaning_and_features_do_not_mutate_caller [dfC10] 0 0
    (by decide) (by decide)
  ⟨facts.1.1, facts.2.1.1, facts.2.2.1⟩

end OpAnalytics
